import Mathlib

/-!
Verification of the QR generation/parsing pipeline (QRApiService and QRService).

The TypeScript source is shallowly embedded: JSON values are an inductive
type `Json` (numbers are exact mantissa·10^exponent pairs; the payloads the
service builds only contain integers, recorded by the predicate `jWF`);
`JSON.stringify` / `JSON.parse` are executable functions `Json.stringify` /
`Json.parse`; network effects are an explicit oracle environment (`NetEnv`,
`GenEnv`) and the observable sequence of network calls is returned as a trace.
-/

/-- A JSON value, as produced by `JSON.parse`.  A number is kept exactly as
`mant · 10 ^ ex10` (mantissa and decimal exponent), which represents every
JSON numeric literal exactly; the service's own payloads only ever contain
integers (`ex10 = 0`, recorded by `jWF`). -/
inductive Json where
  | null
  | bool (b : Bool)
  | num (mant : Int) (ex10 : Int)
  | str (s : String)
  | arr (elems : List Json)
  | obj (fields : List (String × Json))

/-- The JSON whitespace characters accepted by `JSON.parse`
(space, tab, line feed, carriage return). -/
def isJsonWs (c : Char) : Bool :=
  c = ' ' || c = '\x09' || c = '\x0a' || c = '\x0d'

def skipWs : List Char → List Char
  | [] => []
  | c :: r => if isJsonWs c then skipWs r else c :: r

/-- Decimal digit to character. -/
def digitChar (n : Nat) : Char := Char.ofNat (48 + n)

/-- Decimal digits of `n` (fuel-based so that it is structurally recursive;
`natRepr` supplies enough fuel). -/
def natDigits : Nat → Nat → List Char
  | 0, _ => []
  | f + 1, n => if n < 10 then [digitChar n] else natDigits f (n / 10) ++ [digitChar (n % 10)]

/-- Decimal representation of a natural number, as JavaScript prints it. -/
def natRepr (n : Nat) : List Char := natDigits (n + 1) n

/-- Decimal representation of an integer, as JavaScript prints it. -/
def intRepr (z : Int) : List Char :=
  if z < 0 then '-' :: natRepr z.natAbs else natRepr z.toNat

/-- Lowercase hexadecimal digit (used by `JSON.stringify`'s \u escapes and by
`toString(16)`). -/
def hexDigitL (n : Nat) : Char :=
  if n < 10 then Char.ofNat (48 + n) else Char.ofNat (87 + n)

/-- How `JSON.stringify` escapes a single character inside a string literal. -/
def escChar (c : Char) : List Char :=
  if c = '"' then ['\\', '"']
  else if c = '\\' then ['\\', '\\']
  else if c = '\x08' then ['\\', 'b']
  else if c = '\x09' then ['\\', 't']
  else if c = '\x0a' then ['\\', 'n']
  else if c = '\x0c' then ['\\', 'f']
  else if c = '\x0d' then ['\\', 'r']
  else if c.toNat < 32 then
    ['\\', 'u', '0', '0', hexDigitL (c.toNat / 16), hexDigitL (c.toNat % 16)]
  else [c]

def escChars : List Char → List Char
  | [] => []
  | c :: cs => escChar c ++ escChars cs

/-- A JSON string literal: quote, escaped body, quote. -/
def strLit (s : String) : List Char := '"' :: escChars s.data ++ ['"']

mutual

/-- `JSON.stringify`, at the character-list level.  No whitespace is emitted,
object keys keep insertion order — exactly the canonical form the service
serializes. -/
def jChars : Json → List Char
  | .num m _ => intRepr m
  | .str s => strLit s
  | .bool false => ['f', 'a', 'l', 's', 'e']
  | .null => ['n', 'u', 'l', 'l']
  | .bool true => ['t', 'r', 'u', 'e']
  | .arr xs => '[' :: jElemsChars xs ++ [']']
  | .obj kvs => '\x7b' :: jMembersChars kvs ++ ['\x7d']

def jElemsChars : List Json → List Char
  | [] => []
  | [x] => jChars x
  | x :: y :: ys => jChars x ++ ',' :: jElemsChars (y :: ys)

def jMembersChars : List (String × Json) → List Char
  | [] => []
  | [(k, v)] => strLit k ++ ':' :: jChars v
  | (k, v) :: m :: ms => strLit k ++ ':' :: jChars v ++ ',' :: jMembersChars (m :: ms)

end

/-- `JSON.stringify`. -/
def Json.stringify (j : Json) : String := String.mk (jChars j)

mutual

/-- Model well-formedness: every number occurring in the value is an integer
(JavaScript numbers in the service's payloads are epoch timestamps and other
integers; non-integer floats are outside the embedding). -/
def jWF : Json → Bool
  | .null => true
  | .bool _ => true
  | .num _ e => e == 0
  | .str _ => true
  | .arr xs => jlWF xs
  | .obj kvs => joWF kvs

def jlWF : List Json → Bool
  | [] => true
  | x :: xs => jWF x && jlWF xs

def joWF : List (String × Json) → Bool
  | [] => true
  | (_, v) :: kvs => jWF v && joWF kvs

end

/-- Hexadecimal digit value (either case), as accepted by JSON \u escapes. -/
def hexVal (c : Char) : Option Nat :=
  if 48 ≤ c.toNat ∧ c.toNat ≤ 57 then some (c.toNat - 48)
  else if 97 ≤ c.toNat ∧ c.toNat ≤ 102 then some (c.toNat - 87)
  else if 65 ≤ c.toNat ∧ c.toNat ≤ 70 then some (c.toNat - 55)
  else none

/-- Parse the body of a JSON string literal (after the opening quote), up to
and including the closing quote.  Unescaped control characters are rejected,
as `JSON.parse` does. -/
def parseStrBody : List Char → Option (List Char × List Char)
  | [] => none
  | c :: r =>
    if c = '"' then some ([], r)
    else if c = '\\' then
      match r with
      | [] => none
      | e :: r2 =>
        if e = '"' then (parseStrBody r2).map fun p => ('"' :: p.1, p.2)
        else if e = '\\' then (parseStrBody r2).map fun p => ('\\' :: p.1, p.2)
        else if e = '/' then (parseStrBody r2).map fun p => ('/' :: p.1, p.2)
        else if e = 'b' then (parseStrBody r2).map fun p => ('\x08' :: p.1, p.2)
        else if e = 'f' then (parseStrBody r2).map fun p => ('\x0c' :: p.1, p.2)
        else if e = 'n' then (parseStrBody r2).map fun p => ('\x0a' :: p.1, p.2)
        else if e = 'r' then (parseStrBody r2).map fun p => ('\x0d' :: p.1, p.2)
        else if e = 't' then (parseStrBody r2).map fun p => ('\x09' :: p.1, p.2)
        else if e = 'u' then
          match r2 with
          | h1 :: h2 :: h3 :: h4 :: r3 =>
            match hexVal h1, hexVal h2, hexVal h3, hexVal h4 with
            | some a, some b, some cc, some d =>
              (parseStrBody r3).map fun p =>
                (Char.ofNat (4096 * a + 256 * b + 16 * cc + d) :: p.1, p.2)
            | _, _, _, _ => none
          | _ => none
        else none
    else if c.toNat < 32 then none
    else (parseStrBody r).map fun p => (c :: p.1, p.2)

def readDigitsAux : List Char → List Char × List Char
  | [] => ([], [])
  | c :: r =>
    if c.isDigit then
      let p := readDigitsAux r
      (c :: p.1, p.2)
    else ([], c :: r)

def digitsVal (ds : List Char) : Nat := ds.foldl (fun a c => 10 * a + (c.toNat - 48)) 0

/-- The integer part of a JSON number: a single `0`, or a nonzero digit
followed by digits (leading zeros are a syntax error in JSON). -/
def parseIntPart : List Char → Option (Nat × List Char)
  | [] => none
  | c :: r =>
    if c = '0' then some (0, r)
    else if c.isDigit then
      let p := readDigitsAux r
      some (digitsVal (c :: p.1), p.2)
    else none

/-- Optional fractional part of a JSON number: `.` followed by one or more
digits.  Returns (fraction value, number of fraction digits, rest). -/
def parseFrac : List Char → Option (Nat × Nat × List Char)
  | [] => some (0, 0, [])
  | c :: t =>
    if c = '.' then
      let p := readDigitsAux t
      if p.1.isEmpty then none else some (digitsVal p.1, p.1.length, p.2)
    else some (0, 0, c :: t)

/-- Optional exponent part of a JSON number. -/
def parseExp : List Char → Option (Int × List Char)
  | [] => some (0, [])
  | c :: t =>
    if c = 'e' ∨ c = 'E' then
      match t with
      | '+' :: u =>
        let p := readDigitsAux u
        if p.1.isEmpty then none else some ((digitsVal p.1 : Int), p.2)
      | '-' :: u =>
        let p := readDigitsAux u
        if p.1.isEmpty then none else some (-(digitsVal p.1 : Int), p.2)
      | u =>
        let p := readDigitsAux u
        if p.1.isEmpty then none else some ((digitsVal p.1 : Int), p.2)
    else some (0, c :: t)

/-- Parse an unsigned JSON number into mantissa and decimal exponent:
`I.F eE` becomes `(I·10^|F| + F) · 10 ^ (E - |F|)`, its exact value. -/
def parseNumCore (l : List Char) : Option ((Int × Int) × List Char) :=
  match parseIntPart l with
  | none => none
  | some (ip, r1) =>
    match parseFrac r1 with
    | none => none
    | some (fv, fl, r2) =>
      match parseExp r2 with
      | none => none
      | some (ex, r3) =>
        some ((((ip * 10 ^ fl + fv : Nat) : Int), ex - (fl : Int)), r3)

def parseNum (l : List Char) : Option (Json × List Char) :=
  match l with
  | [] => none
  | c :: r =>
    if c = '-' then
      match parseNumCore r with
      | some (me, rest) => some (.num (-me.1) me.2, rest)
      | none => none
    else
      match parseNumCore (c :: r) with
      | some (me, rest) => some (.num me.1 me.2, rest)
      | none => none

mutual

/-- Recursive-descent JSON value parser (fuel-based; `Json.parse` supplies
fuel `length + 1`, which suffices because each recursive call consumes at
least one character). -/
def parseV : Nat → List Char → Option (Json × List Char)
  | 0, _ => none
  | f + 1, l =>
    match skipWs l with
    | [] => none
    | c :: r =>
      if c = 'n' then
        match r with
        | 'u' :: 'l' :: 'l' :: r' => some (.null, r')
        | _ => none
      else if c = 't' then
        match r with
        | 'r' :: 'u' :: 'e' :: r' => some (.bool true, r')
        | _ => none
      else if c = 'f' then
        match r with
        | 'a' :: 'l' :: 's' :: 'e' :: r' => some (.bool false, r')
        | _ => none
      else if c = '"' then
        match parseStrBody r with
        | some (cs, r') => some (.str (String.mk cs), r')
        | none => none
      else if c = '[' then
        match skipWs r with
        | ']' :: r' => some (.arr [], r')
        | _ =>
          match parseElems f r with
          | some (xs, r') => some (.arr xs, r')
          | none => none
      else if c = '\x7b' then
        match skipWs r with
        | '\x7d' :: r' => some (.obj [], r')
        | _ =>
          match parseMembers f r with
          | some (kvs, r') => some (.obj kvs, r')
          | none => none
      else parseNum (c :: r)

def parseElems : Nat → List Char → Option (List Json × List Char)
  | 0, _ => none
  | f + 1, l =>
    match parseV f l with
    | none => none
    | some (v, r) =>
      match skipWs r with
      | ',' :: r' =>
        match parseElems f r' with
        | some (vs, r'') => some (v :: vs, r'')
        | none => none
      | ']' :: r' => some ([v], r')
      | _ => none

def parseMembers : Nat → List Char → Option (List (String × Json) × List Char)
  | 0, _ => none
  | f + 1, l =>
    match skipWs l with
    | '"' :: r =>
      match parseStrBody r with
      | none => none
      | some (kcs, r1) =>
        match skipWs r1 with
        | ':' :: r2 =>
          match parseV f r2 with
          | none => none
          | some (v, r3) =>
            match skipWs r3 with
            | ',' :: r4 =>
              match parseMembers f r4 with
              | some (kvs, r5) => some ((String.mk kcs, v) :: kvs, r5)
              | none => none
            | '\x7d' :: r4 => some ([(String.mk kcs, v)], r4)
            | _ => none
        | _ => none
    | _ => none

end

mutual

def jbeq : Json → Json → Bool
  | .null, .null => true
  | .bool a, .bool b => a == b
  | .num m e, .num m' e' => m == m' && e == e'
  | .str a, .str b => a == b
  | .arr a, .arr b => jlbeq a b
  | .obj a, .obj b => jobeq a b
  | _, _ => false

def jlbeq : List Json → List Json → Bool
  | [], [] => true
  | x :: xs, y :: ys => jbeq x y && jlbeq xs ys
  | _, _ => false

def jobeq : List (String × Json) → List (String × Json) → Bool
  | [], [] => true
  | (k, v) :: xs, (k', v') :: ys => k == k' && jbeq v v' && jobeq xs ys
  | _, _ => false

end

mutual

theorem jbeq_iff : (a b : Json) → (jbeq a b = true ↔ a = b)
  | .null, b => by cases b <;> simp [jbeq]
  | .bool x, b => by cases b <;> simp [jbeq]
  | .num m e, b => by cases b <;> simp [jbeq]
  | .str x, b => by cases b <;> simp [jbeq]
  | .arr xs, b => by
    cases b with
    | arr ys => simpa [jbeq] using jlbeq_iff xs ys
    | null | bool | num | str | obj => simp [jbeq]
  | .obj kvs, b => by
    cases b with
    | obj kvs' => simpa [jbeq] using jobeq_iff kvs kvs'
    | null | bool | num | str | arr => simp [jbeq]

theorem jlbeq_iff : (a b : List Json) → (jlbeq a b = true ↔ a = b)
  | [], b => by cases b <;> simp [jlbeq]
  | x :: xs, [] => by simp [jlbeq]
  | x :: xs, y :: ys => by
    simp [jlbeq, jbeq_iff x y, jlbeq_iff xs ys]

theorem jobeq_iff : (a b : List (String × Json)) → (jobeq a b = true ↔ a = b)
  | [], b => by cases b <;> simp [jobeq]
  | (k, v) :: xs, [] => by simp [jobeq]
  | (k, v) :: xs, (k', v') :: ys => by
    simp [jobeq, jbeq_iff v v', jobeq_iff xs ys, and_assoc]

end

instance : DecidableEq Json := fun a b => decidable_of_iff _ (jbeq_iff a b)

/-- A suffix that cannot extend a preceding numeric literal (empty, or
starting with a non-digit other than `.`/`e`/`E`); in serialized JSON a
number is always followed by `,`, `]`, `}` or the end of input. -/
def numStop (l : List Char) : Prop :=
  match l with
  | [] => True
  | c :: _ => c.isDigit = false ∧ c ≠ '.' ∧ c ≠ 'e' ∧ c ≠ 'E'

/-- `JSON.parse`: parse one JSON value, allowing surrounding whitespace,
requiring the whole input to be consumed.  `none` models a thrown
`SyntaxError`. -/
def Json.parseChars (l : List Char) : Option Json :=
  match parseV (l.length + 1) l with
  | some (j, rest) => if (skipWs rest).isEmpty then some j else none
  | none => none

def Json.parse (s : String) : Option Json := Json.parseChars s.data

/-! ## JavaScript-semantics helpers: truthiness, property access, trim -/

/-- JavaScript truthiness of a JSON value (`0`, `-0`, `""`, `null`, `false`
are falsy; every object and array is truthy). -/
def jsTruthy : Json → Bool
  | .null => false
  | .bool b => b
  | .num m _ => m != 0
  | .str s => !s.isEmpty
  | .arr _ => true
  | .obj _ => true

/-- Lookup of an object key; on duplicate keys the LAST occurrence wins,
matching `JSON.parse` / JavaScript object semantics. -/
def lookupLast (kvs : List (String × Json)) (k : String) : Option Json :=
  match kvs with
  | [] => none
  | (k', v) :: t =>
    match lookupLast t k with
    | some r => some r
    | none => if k' = k then some v else none

/-- JavaScript property access `j.k` on a non-null value: `none` models
`undefined` (primitives have no own properties; arrays' index properties are
never accessed by the service). -/
def getProp (j : Json) (k : String) : Option Json :=
  match j with
  | .obj kvs => lookupLast kvs k
  | _ => none

/-- Truthiness of `j.k` (with `undefined` falsy). -/
def truthyProp (j : Json) (k : String) : Bool :=
  match getProp j k with
  | some v => jsTruthy v
  | none => false

/-- The WhiteSpace ∪ LineTerminator set trimmed by JavaScript
`String.prototype.trim`. -/
def isJsWs (c : Char) : Bool :=
  let n := c.toNat
  (9 ≤ n && n ≤ 13) || n = 32 || n = 160 || n = 5760 ||
    (8192 ≤ n && n ≤ 8202) || n = 8232 || n = 8233 || n = 8239 || n = 8287 ||
    n = 12288 || n = 65279

/-- JavaScript `String.prototype.trim`. -/
def jsTrim (s : String) : String :=
  String.mk (((s.data.dropWhile isJsWs).reverse.dropWhile isJsWs).reverse)

/-! ## Percent-encoding: `encodeURIComponent` and `URLSearchParams` -/

/-- UTF-8 bytes of one character (scalar value), as used by
`encodeURIComponent` and `TextEncoder`. -/
def utf8Bytes (c : Char) : List Nat :=
  let n := c.toNat
  if n < 128 then [n]
  else if n < 2048 then [192 + n / 64, 128 + n % 64]
  else if n < 65536 then [224 + n / 4096, 128 + n / 64 % 64, 128 + n % 64]
  else [240 + n / 262144, 128 + n / 4096 % 64, 128 + n / 64 % 64, 128 + n % 64]

/-- Uppercase hexadecimal digit (percent-escapes use uppercase). -/
def hexDigitU (n : Nat) : Char :=
  if n < 10 then Char.ofNat (48 + n) else Char.ofNat (55 + n)

def byteHexU (b : Nat) : List Char := ['%', hexDigitU (b / 16), hexDigitU (b % 16)]

def percentBytes : List Nat → List Char
  | [] => []
  | b :: bs => byteHexU b ++ percentBytes bs

/-- The characters `encodeURIComponent` leaves unescaped:
alphanumerics and `- _ . ! ~ * ' ( )`. -/
def isUnreservedURI (c : Char) : Bool :=
  c.isAlphanum || c = '-' || c = '_' || c = '.' || c = '!' || c = '~' ||
    c = '*' || c.toNat = 39 || c = '(' || c = ')'

def uriEncodeChars : List Char → List Char
  | [] => []
  | c :: cs =>
    (if isUnreservedURI c then [c] else percentBytes (utf8Bytes c)) ++ uriEncodeChars cs

/-- JavaScript `encodeURIComponent`. -/
def encodeURIComponent (s : String) : String := String.mk (uriEncodeChars s.data)

/-- The characters `URLSearchParams` serialization leaves unescaped
(`application/x-www-form-urlencoded`): alphanumerics and `* - . _`;
space becomes `+`. -/
def isUnreservedForm (c : Char) : Bool :=
  c.isAlphanum || c = '*' || c = '-' || c = '.' || c = '_'

def formEncodeChars : List Char → List Char
  | [] => []
  | c :: cs =>
    (if isUnreservedForm c then [c]
     else if c = ' ' then ['+']
     else percentBytes (utf8Bytes c)) ++ formEncodeChars cs

def formEncode (s : String) : String := String.mk (formEncodeChars s.data)

/-- `URLSearchParams.toString()`: `k=v` pairs joined by `&`, both sides
form-encoded, insertion order preserved. -/
def formPairs : List (String × String) → String
  | [] => ""
  | [(k, v)] => formEncode k ++ "=" ++ formEncode v
  | (k, v) :: p :: ps => formEncode k ++ "=" ++ formEncode v ++ "&" ++ formPairs (p :: ps)

/-! ### Standard decoding of query parameters

To state what a produced URL's query parameter decodes to, we model the
standard `application/x-www-form-urlencoded` decoding used by
`URLSearchParams`: split the query on `&`, split each pair at the first
`=`, replace `+` by space, percent-decode to bytes, and decode UTF-8. -/

/-- The WHATWG form-decoding pre-step: `+` becomes a space. -/
def plusToSpace (c : Char) : Char := if c = '+' then ' ' else c

/-- Percent-decoding to bytes: each `%XX` yields one byte, any other
character contributes its UTF-8 bytes; malformed escapes fail. -/
def pctBytes : List Char → Option (List Nat)
  | [] => some []
  | c :: cs =>
    if c = '%' then
      match cs with
      | c1 :: c2 :: cs2 =>
        match hexVal c1, hexVal c2 with
        | some h1, some h2 => (pctBytes cs2).map fun bs => (16 * h1 + h2) :: bs
        | _, _ => none
      | _ => none
    else (pctBytes cs).map fun bs => utf8Bytes c ++ bs

/-- UTF-8 decoding of a byte sequence (fuel-based; one unit of fuel per
decoded character, so any fuel above the byte count works). -/
def utf8Decode : Nat → List Nat → Option (List Char)
  | 0, _ => none
  | _ + 1, [] => some []
  | f + 1, b :: bs =>
    if b < 128 then (utf8Decode f bs).map (fun l => Char.ofNat b :: l)
    else if b < 192 then none
    else if b < 224 then
      if 1 ≤ bs.length ∧ bs.getD 0 0 / 64 = 2 then
        (utf8Decode f (bs.drop 1)).map
          (fun l => Char.ofNat ((b - 192) * 64 + (bs.getD 0 0 - 128)) :: l)
      else none
    else if b < 240 then
      if 2 ≤ bs.length ∧ bs.getD 0 0 / 64 = 2 ∧ bs.getD 1 0 / 64 = 2 then
        (utf8Decode f (bs.drop 2)).map (fun l =>
          Char.ofNat ((b - 224) * 4096 + (bs.getD 0 0 - 128) * 64 + (bs.getD 1 0 - 128)) :: l)
      else none
    else if b < 248 then
      if 3 ≤ bs.length ∧ bs.getD 0 0 / 64 = 2 ∧ bs.getD 1 0 / 64 = 2 ∧ bs.getD 2 0 / 64 = 2 then
        (utf8Decode f (bs.drop 3)).map (fun l =>
          Char.ofNat ((b - 240) * 262144 + (bs.getD 0 0 - 128) * 4096
            + (bs.getD 1 0 - 128) * 64 + (bs.getD 2 0 - 128)) :: l)
      else none
    else none

/-- Form-decoding of one token (a key or a value of a query pair). -/
def formDecodeStr (s : String) : Option String :=
  (pctBytes (s.data.map plusToSpace)).bind fun bs =>
    (utf8Decode (bs.length + 1) bs).map String.mk

/-- The query part of a URL: the characters after the first `?`. -/
def queryOf : List Char → List Char
  | [] => []
  | c :: cs => if c = '?' then cs else queryOf cs

/-- Split on `&` (the accumulator holds the current chunk reversed). -/
def splitAmpAux (cur : List Char) : List Char → List (List Char)
  | [] => [cur.reverse]
  | c :: cs => if c = '&' then cur.reverse :: splitAmpAux [] cs else splitAmpAux (c :: cur) cs

/-- Split a chunk at its first `=` into key and value. -/
def splitEqL : List Char → List Char × List Char
  | [] => ([], [])
  | c :: cs =>
    if c = '=' then ([], cs)
    else
      let p := splitEqL cs
      (c :: p.1, p.2)

/-- `new URLSearchParams(query).get(k)`: the form-decoded value of the
first pair whose form-decoded key equals `k`. -/
def getParam (url : String) (k : String) : Option String :=
  match (splitAmpAux [] (queryOf url.data)).find?
      (fun chunk => formDecodeStr (String.mk (splitEqL chunk).1) == some k) with
  | some chunk => formDecodeStr (String.mk (splitEqL chunk).2)
  | none => none

/-! ## QRApiService: providers, URL builders, tiered generation -/

/-- The provider base endpoints (`providers.qrserver` and `providers.goqr`
are the identical URL in the source). -/
def qrserverBase : String := "https://api.qrserver.com/v1/create-qr-code/"

def quickchartBase : String := "https://quickchart.io/qr"

def natReprStr (n : Nat) : String := String.mk (natRepr n)

/-- The options object accepted by `generateQRWithAPI` (all fields
optional). -/
structure ApiOptionsIn where
  size : Option Nat
  format : Option String
  errorCorrection : Option String
  margin : Option Nat
  color : Option String
  backgroundColor : Option String
deriving DecidableEq

/-- Effective options after `generateQRWithAPI`'s destructuring defaults
`size = 300, format = 'png', errorCorrection = 'H', margin = 2,
color = '2D5A27', backgroundColor = 'FFFFFF'`. -/
structure ApiOptions where
  size : Nat
  format : String
  errorCorrection : String
  margin : Nat
  color : String
  backgroundColor : String
deriving DecidableEq

def effApiOptions (o : ApiOptionsIn) : ApiOptions :=
  ⟨o.size.getD 300, o.format.getD "png", o.errorCorrection.getD "H",
   o.margin.getD 2, o.color.getD "2D5A27", o.backgroundColor.getD "FFFFFF"⟩

/-- `buildQRServerUrl`: note the source applies `encodeURIComponent` to
`data` and then hands the result to `URLSearchParams`, which percent-encodes
again. -/
def buildQRServerUrl (data : String) (o : ApiOptions) : String :=
  qrserverBase ++ "?" ++ formPairs
    [("data", encodeURIComponent data),
     ("size", natReprStr o.size ++ "x" ++ natReprStr o.size),
     ("format", o.format),
     ("ecc", o.errorCorrection),
     ("margin", natReprStr o.margin),
     ("color", o.color),
     ("bgcolor", o.backgroundColor)]

/-- `buildQuickChartUrl` (parameters `text`, `size`, `format` only). -/
def buildQuickChartUrl (data : String) (size : Nat) (format : String) : String :=
  quickchartBase ++ "?" ++ formPairs
    [("text", encodeURIComponent data),
     ("size", natReprStr size ++ "x" ++ natReprStr size),
     ("format", format)]

/-- Options of the local `QRCode.toDataURL` renderer.  `quality: 0.92` is
kept exactly as mantissa/exponent `92 · 10⁻²`; the `type` field is named
`imageType`. -/
structure LocalStyle where
  errorCorrectionLevel : String
  imageType : String
  qualityMant : Int
  qualityEx10 : Int
  margin : Nat
  colorDark : String
  colorLight : String
  width : Nat
deriving DecidableEq

/-- One observable external call made by the pipeline. -/
inductive NetCall where
  | head (url : String)
  | get (url : String)
  | blob (url : String)
  | localRender (data : String) (style : LocalStyle)
deriving DecidableEq

/-- Deterministic oracle for the network: result of `fetch(url, HEAD)`
(`ok` flag or a thrown error), of `fetch(url)`, and of the
`blob → FileReader` data-URL conversion of `url`'s body. -/
structure NetEnv where
  head : String → Except String Bool
  get : String → Except String Bool
  blob : String → Except String String

/-- Result shape of `generateQRWithAPI` and `generateBatchQR`. -/
structure ApiResult where
  success : Bool
  url : Option String
  dataURL : Option String
  error : Option String
deriving DecidableEq

/-- Tier 1 of `generateQRWithAPI`: HEAD-probe the QR Server URL; on
`response.ok`, fetch the image (its own `ok` flag is never checked) and
convert to a data URL.  `.error` is a caught exception. -/
def tier1Run (env : NetEnv) (u : String) : Except String ApiResult × List NetCall :=
  match env.head u with
  | .error e => (.error e, [.head u])
  | .ok false => (.error "QR Server API not accessible", [.head u])
  | .ok true =>
    match env.get u with
    | .error e => (.error e, [.head u, .get u])
    | .ok _ =>
      match env.blob u with
      | .error e => (.error e, [.head u, .get u, .blob u])
      | .ok d => (.ok ⟨true, some u, some d, none⟩, [.head u, .get u, .blob u])

/-- Tier 2 (inside the catch): fetch the QuickChart URL directly — no HEAD
probe.  `ok none` models the non-ok response falling through the inner `try`
without returning. -/
def tier2Run (env : NetEnv) (u : String) : Except String (Option ApiResult) × List NetCall :=
  match env.get u with
  | .error e => (.error e, [.get u])
  | .ok false => (.ok none, [.get u])
  | .ok true =>
    match env.blob u with
    | .error e => (.error e, [.get u, .blob u])
    | .ok d => (.ok (some ⟨true, some u, some d, none⟩), [.get u, .blob u])

/-- `QRApiService.generateQRWithAPI`, with the trace of calls it issues. -/
def generateQRWithAPIT (env : NetEnv) (data : String) (oin : ApiOptionsIn) :
    ApiResult × List NetCall :=
  let o := effApiOptions oin
  let u1 := buildQRServerUrl data o
  match tier1Run env u1 with
  | (.ok r, t) => (r, t)
  | (.error _, t) =>
    let u2 := buildQuickChartUrl data o.size o.format
    match tier2Run env u2 with
    | (.ok (some r), t2) => (r, t ++ t2)
    | (.ok none, t2) => (⟨false, none, none, some "All QR code APIs are unavailable"⟩, t ++ t2)
    | (.error _, t2) => (⟨false, none, none, some "All QR code APIs are unavailable"⟩, t ++ t2)

def generateQRWithAPI (env : NetEnv) (data : String) (oin : ApiOptionsIn) : ApiResult :=
  (generateQRWithAPIT env data oin).1

/-! ## SHA-256 (`crypto.subtle.digest('SHA-256', …)`), per FIPS 180-4 -/

def not32 (x : Nat) : Nat := 4294967295 - x

def rotr32 (x n : Nat) : Nat := x / 2 ^ n + x % 2 ^ n * 2 ^ (32 - n)

def bigSigma0 (x : Nat) : Nat := rotr32 x 2 ^^^ rotr32 x 13 ^^^ rotr32 x 22

def bigSigma1 (x : Nat) : Nat := rotr32 x 6 ^^^ rotr32 x 11 ^^^ rotr32 x 25

def smallSigma0 (x : Nat) : Nat := rotr32 x 7 ^^^ rotr32 x 18 ^^^ x / 8

def smallSigma1 (x : Nat) : Nat := rotr32 x 17 ^^^ rotr32 x 19 ^^^ x / 1024

def chFn (x y z : Nat) : Nat := x &&& y ^^^ not32 x &&& z

def majFn (x y z : Nat) : Nat := x &&& y ^^^ x &&& z ^^^ y &&& z

def sha256K : List Nat :=
  [1116352408, 1899447441, 3049323471, 3921009573, 961987163, 1508970993,
   2453635748, 2870763221, 3624381080, 310598401, 607225278, 1426881987,
   1925078388, 2162078206, 2614888103, 3248222580, 3835390401, 4022224774,
   264347078, 604807628, 770255983, 1249150122, 1555081692, 1996064986,
   2554220882, 2821834349, 2952996808, 3210313671, 3336571891, 3584528711,
   113926993, 338241895, 666307205, 773529912, 1294757372, 1396182291,
   1695183700, 1986661051, 2177026350, 2456956037, 2730485921, 2820302411,
   3259730800, 3345764771, 3516065817, 3600352804, 4094571909, 275423344,
   430227734, 506948616, 659060556, 883997877, 958139571, 1322822218,
   1537002063, 1747873779, 1955562222, 2024104815, 2227730452, 2361852424,
   2428436474, 2756734187, 3204031479, 3329325298]

def sha256H0 : List Nat :=
  [1779033703, 3144134277, 1013904242, 2773480762,
   1359893119, 2600822924, 528734635, 1541459225]

/-- 64-bit big-endian byte encoding (for the message-length suffix). -/
def be64 (n : Nat) : List Nat :=
  [n / 2 ^ 56 % 256, n / 2 ^ 48 % 256, n / 2 ^ 40 % 256, n / 2 ^ 32 % 256,
   n / 2 ^ 24 % 256, n / 2 ^ 16 % 256, n / 2 ^ 8 % 256, n % 256]

/-- Merkle–Damgård padding: `0x80`, zeros to 56 mod 64, 8-byte bit length. -/
def sha256Pad (msg : List Nat) : List Nat :=
  let l := msg.length
  msg ++ 128 :: List.replicate ((119 - l % 64) % 64) 0 ++ be64 (8 * l)

def bytesToWords : List Nat → List Nat
  | b0 :: b1 :: b2 :: b3 :: rest => (((b0 * 256 + b1) * 256 + b2) * 256 + b3) :: bytesToWords rest
  | _ => []

/-- Extend the 16 block words to 64 schedule words. -/
def extendW : Nat → List Nat → List Nat
  | 0, ws => ws
  | n + 1, ws =>
    extendW n (ws ++ [(smallSigma1 (ws.getD (ws.length - 2) 0) + ws.getD (ws.length - 7) 0 +
      smallSigma0 (ws.getD (ws.length - 15) 0) + ws.getD (ws.length - 16) 0) % 4294967296])

def sha256Round (st : List Nat) (kw : Nat) : List Nat :=
  match st with
  | [a, b, c, d, e, f, g, h] =>
    let t1 := (h + bigSigma1 e + chFn e f g + kw) % 4294967296
    let t2 := (bigSigma0 a + majFn a b c) % 4294967296
    [(t1 + t2) % 4294967296, a, b, c, (d + t1) % 4294967296, e, f, g]
  | other => other

def sha256Compress (h : List Nat) (block : List Nat) : List Nat :=
  let w := extendW 48 (bytesToWords block)
  let kw := List.zipWith (fun k wi => (k + wi) % 4294967296) sha256K w
  let st := kw.foldl sha256Round h
  List.zipWith (fun x y => (x + y) % 4294967296) h st

/-- Split into 64-byte blocks (fuel-based; any fuel ≥ length works). -/
def chunk64 : Nat → List Nat → List (List Nat)
  | 0, _ => []
  | _, [] => []
  | f + 1, bytes => bytes.take 64 :: chunk64 f (bytes.drop 64)

def wordBE4 (w : Nat) : List Nat := [w / 16777216 % 256, w / 65536 % 256, w / 256 % 256, w % 256]

def wordsToBytes : List Nat → List Nat
  | [] => []
  | w :: ws => wordBE4 w ++ wordsToBytes ws

/-- SHA-256 digest (32 bytes) of a byte sequence. -/
def sha256 (bytes : List Nat) : List Nat :=
  let padded := sha256Pad bytes
  wordsToBytes ((chunk64 (padded.length + 1) padded).foldl sha256Compress sha256H0)

/-- `TextEncoder().encode`: UTF-8 bytes of a string. -/
def utf8List : List Char → List Nat
  | [] => []
  | c :: cs => utf8Bytes c ++ utf8List cs

/-- One byte printed as JavaScript `b.toString(16).padStart(2, '0')`
(lowercase, two digits). -/
def byteHexJS (b : Nat) : List Char :=
  if b < 16 then ['0', hexDigitL b] else [hexDigitL (b / 16), hexDigitL (b % 16)]

def bytesToHexJS : List Nat → List Char
  | [] => []
  | b :: bs => byteHexJS b ++ bytesToHexJS bs

/-- `QRService.generateHash`: lowercase-hex SHA-256 of the string's UTF-8
bytes. -/
def generateHash (data : String) : String :=
  String.mk (bytesToHexJS (sha256 (utf8List data.data)))

/-! ## QRService: payload enrichment, generation, parsing -/

mutual

/-- JavaScript `String(v)` coercion for JSON values (used by template
literals); numbers are printed faithfully in the integral case. -/
def jsToString : Json → String
  | .null => "null"
  | .bool true => "true"
  | .bool false => "false"
  | .num m e => if e = 0 then String.mk (intRepr m) else String.mk (intRepr m) ++ "e" ++ String.mk (intRepr e)
  | .str s => s
  | .arr xs => jsArrJoin xs
  | .obj _ => "[object Object]"

/-- `Array.prototype.toString` = elements joined by "," (null elements
become the empty string). -/
def jsArrJoin : List Json → String
  | [] => ""
  | [x] =>
    match x with
    | .null => ""
    | x => jsToString x
  | x :: y :: ys =>
    (match x with
     | .null => ""
     | x => jsToString x) ++ "," ++ jsArrJoin (y :: ys)

end

/-- `${v}` interpolation, where a missing property prints "undefined". -/
def jsTemplate (o : Option Json) : String :=
  match o with
  | some v => jsToString v
  | none => "undefined"

/-- JavaScript object-literal update `{...kvs, k: v}`: if `k` is present its
value is replaced in place (keeping its position), otherwise the pair is
appended. -/
def objInsert (kvs : List (String × Json)) (k : String) (v : Json) : List (String × Json) :=
  if kvs.any (fun p => p.1 = k) then kvs.map (fun p => if p.1 = k then (k, v) else p)
  else kvs ++ [(k, v)]

/-- The derived tracking URL `${baseUrl}/track/${data.eventId}`. -/
def trackingUrlOf (origin : String) (data : List (String × Json)) : String :=
  origin ++ "/track/" ++ jsTemplate (lookupLast data "eventId")

/-- The enrichment step of `generateQR` / `generateEnhancedQR`:
`{...data, trackingUrl, timestamp: Date.now(), version: '1.0'}`. -/
def enrichPayload (origin : String) (nowMs : Int) (data : List (String × Json)) :
    List (String × Json) :=
  objInsert
    (objInsert (objInsert data "trackingUrl" (.str (trackingUrlOf origin data)))
      "timestamp" (.num nowMs 0))
    "version" (.str "1.0")

/-- Oracle environment of `QRService`: the network oracle, the local
`QRCode.toDataURL` renderer, `window.location.origin`, and `Date.now()`. -/
structure GenEnv where
  net : NetEnv
  localRender : String → LocalStyle → Except String String
  origin : String
  nowMs : Int

structure GenResult where
  success : Bool
  dataURL : Option String
  trackingUrl : Option String
  qrHash : Option String
  error : Option String
deriving DecidableEq

/-- The local-renderer style used by `generateQR`'s tier-3 fallback. -/
def generateQRLocalStyle : LocalStyle :=
  ⟨"H", "image/png", 92, -2, 2, "#2D5A27", "#FFFFFF", 300⟩

/-- The API options passed by `generateQR` (and, with the same values, by
`generateBatchQR`): size 300, png, H, margin 2, brand colors. -/
def stdApiOpts : ApiOptionsIn :=
  ⟨some 300, some "png", some "H", some 2, some "2D5A27", some "FFFFFF"⟩

/-- The serialized enriched payload `JSON.stringify(qrData)`. -/
def enrichStringOf (origin : String) (nowMs : Int) (data : List (String × Json)) : String :=
  Json.stringify (.obj (enrichPayload origin nowMs data))

/-- `QRService.generateQR` (the `title` argument is accepted and unused, as
in the source), with its trace of external calls. -/
def generateQRT (env : GenEnv) (data : List (String × Json)) (title : String) :
    GenResult × List NetCall :=
  let qrString := enrichStringOf env.origin env.nowMs data
  let qrHash := generateHash qrString
  let turl := trackingUrlOf env.origin data
  let pr := generateQRWithAPIT env.net qrString stdApiOpts
  let okURL : Option String :=
    match pr.1.dataURL with
    | some d => if pr.1.success && !d.isEmpty then some d else none
    | none => none
  match okURL with
  | some d => (⟨true, some d, some turl, some qrHash, none⟩, pr.2)
  | none =>
    match env.localRender qrString generateQRLocalStyle with
    | .ok d =>
      (⟨true, some d, some turl, some qrHash, none⟩,
        pr.2 ++ [.localRender qrString generateQRLocalStyle])
    | .error m =>
      (⟨false, none, none, none, some m⟩,
        pr.2 ++ [.localRender qrString generateQRLocalStyle])

def generateQR (env : GenEnv) (data : List (String × Json)) (title : String) : GenResult :=
  (generateQRT env data title).1

structure ValidateResult where
  valid : Bool
  data : Option Json
  error : Option String
deriving DecidableEq

structure ParseResult where
  success : Bool
  data : Option Json
  error : Option String
deriving DecidableEq

/-- `QRApiService.validateQRData`.  When the parsed value is JSON `null`,
the `data.batchId` access throws a TypeError that the same `catch` turns
into the invalid-format result. -/
def validateQRData (s : String) : ValidateResult :=
  match Json.parse s with
  | none => ⟨false, none, some "Invalid QR code format"⟩
  | some .null => ⟨false, none, some "Invalid QR code format"⟩
  | some data =>
    if !truthyProp data "batchId" || !truthyProp data "eventId" || !truthyProp data "type" then
      ⟨false, none, some "Missing required fields in QR code"⟩
    else ⟨true, some data, none⟩

/-- The message of the TypeError thrown by `qrData.eventId` when `qrData`
is `null` (engine-dependent text; V8-like wording, quotes omitted).  The
claims only rely on it being the caught TypeError message, distinct from
the missing-event-ID error the service itself throws. -/
def nullPropertyAccessMessage : String := "Cannot read properties of null (reading eventId)"

/-- The bare-identifier payload synthesized when the input is not JSON:
`{eventId: input.trim(), type: 'direct_id', batchId: input.trim()}`. -/
def bareIdPayload (s : String) : Json :=
  .obj [("eventId", .str (jsTrim s)), ("type", .str "direct_id"), ("batchId", .str (jsTrim s))]

/-- `QRService.parseQRData`. -/
def parseQRData (s : String) : ParseResult :=
  let av := validateQRData s
  if av.valid then ⟨true, av.data, none⟩
  else
    match Json.parse s with
    | some .null => ⟨false, none, some nullPropertyAccessMessage⟩
    | some j =>
      if !truthyProp j "eventId" then
        ⟨false, none, some "Invalid QR code format - missing event ID"⟩
      else ⟨true, some j, none⟩
    | none =>
      let bare := bareIdPayload s
      if !truthyProp bare "eventId" then
        ⟨false, none, some "Invalid QR code format - missing event ID"⟩
      else ⟨true, some bare, none⟩

namespace QRApiService

/-- The preset `{size: 200, format: 'png', errorCorrection: 'M'}` passed by
`generateTrackingQR` — margin left unset. -/
def trackingApiOpts : ApiOptionsIn := ⟨some 200, some "png", some "M", none, none, none⟩

/-- `QRApiService.generateTrackingQR`: `generateQRWithAPI` with
`trackingApiOpts`. -/
def generateTrackingQRT (env : NetEnv) (trackingUrl : String) : ApiResult × List NetCall :=
  generateQRWithAPIT env trackingUrl trackingApiOpts

def generateTrackingQR (env : NetEnv) (trackingUrl : String) : ApiResult :=
  (generateTrackingQRT env trackingUrl).1

end QRApiService

structure TrackResult where
  success : Bool
  dataURL : Option String
  error : Option String
deriving DecidableEq

namespace QRService

/-- The local fallback style of `QRService.generateTrackingQR`. -/
def trackingLocalStyle : LocalStyle :=
  ⟨"M", "image/png", 92, -2, 1, "#000000", "#FFFFFF", 200⟩

/-- `QRService.generateTrackingQR`: remote preset first, local fallback
(M, margin 1, width 200) when the remote result is unsuccessful. -/
def generateTrackingQRT (env : GenEnv) (trackingUrl : String) : TrackResult × List NetCall :=
  let pr := QRApiService.generateTrackingQRT env.net trackingUrl
  let result := pr.1
  if !result.success then
    match env.localRender trackingUrl trackingLocalStyle with
    | .ok d => (⟨true, some d, none⟩, pr.2 ++ [.localRender trackingUrl trackingLocalStyle])
    | .error m => (⟨false, none, some m⟩, pr.2 ++ [.localRender trackingUrl trackingLocalStyle])
  else (⟨result.success, result.dataURL, result.error⟩, pr.2)

def generateTrackingQR (env : GenEnv) (trackingUrl : String) : TrackResult :=
  (generateTrackingQRT env trackingUrl).1

end QRService

/-- The `batchData` argument of `generateBatchQR`; `none` models an
`undefined` field (omitted by `JSON.stringify`). -/
structure BatchData where
  batchId : Option Json
  eventId : Option Json
  type : Option Json
  herbSpecies : Option Json
  participant : Option Json
  trackingUrl : Option Json

/-- The own-properties of `batchData`, in declaration order, with
`undefined`-valued fields omitted (observationally equal for both
`JSON.stringify` and property access). -/
def batchFields (bd : BatchData) : List (String × Json) :=
  (match bd.batchId with | some v => [("batchId", v)] | none => []) ++
  (match bd.eventId with | some v => [("eventId", v)] | none => []) ++
  (match bd.type with | some v => [("type", v)] | none => []) ++
  (match bd.herbSpecies with | some v => [("herbSpecies", v)] | none => []) ++
  (match bd.participant with | some v => [("participant", v)] | none => []) ++
  (match bd.trackingUrl with | some v => [("trackingUrl", v)] | none => [])

/-- The object `generateBatchQR` serializes:
`{...batchData, timestamp: Date.now(), version: '1.0',
network: 'hyperledger-fabric'}` (the three added keys cannot clash with
`batchData`'s fixed key set, so the literal appends them). -/
def batchQRPayload (bd : BatchData) (nowMs : Int) : List (String × Json) :=
  batchFields bd ++
    [("timestamp", .num nowMs 0), ("version", .str "1.0"),
     ("network", .str "hyperledger-fabric")]

/-- `QRApiService.generateBatchQR`. -/
def generateBatchQRT (env : NetEnv) (bd : BatchData) (nowMs : Int) : ApiResult × List NetCall :=
  generateQRWithAPIT env (Json.stringify (.obj (batchQRPayload bd nowMs))) stdApiOpts

def generateBatchQR (env : NetEnv) (bd : BatchData) (nowMs : Int) : ApiResult :=
  (generateBatchQRT env bd nowMs).1

/-- JavaScript `a || b` on possibly-undefined values. -/
def jsOrOpt (a b : Option Json) : Option Json :=
  if (match a with | some v => jsTruthy v | none => false) then a else b

/-- `customization.color || dflt` (empty string is falsy). -/
def jsOrStr (o : Option String) (dflt : String) : String :=
  match o with
  | some s => if s.isEmpty then dflt else s
  | none => dflt

structure EnhancedOpts where
  size : Option Nat
  useAPI : Option Bool
  custColor : Option String
  custBg : Option String

/-- `QRService.generateEnhancedQR`.  With `useAPI` truthy it routes through
`generateBatchQR` (the batch-QR path) and has no local fallback: a failed
API result throws `'API generation failed'` into the outer catch. -/
def generateEnhancedQRT (env : GenEnv) (data : List (String × Json)) (opts : EnhancedOpts) :
    GenResult × List NetCall :=
  let size := opts.size.getD 300
  let useAPI := opts.useAPI.getD true
  let qrData := enrichPayload env.origin env.nowMs data
  let qrString := Json.stringify (.obj qrData)
  let qrHash := generateHash qrString
  let turl := trackingUrlOf env.origin data
  if useAPI then
    let bd : BatchData :=
      ⟨lookupLast data "batchId", lookupLast data "eventId", lookupLast data "type",
       lookupLast data "herbSpecies",
       jsOrOpt (jsOrOpt (jsOrOpt (lookupLast data "collector") (lookupLast data "tester"))
         (lookupLast data "processor")) (lookupLast data "manufacturer"),
       some (.str turl)⟩
    let pr := generateBatchQRT env.net bd env.nowMs
    let okURL : Option String :=
      match pr.1.dataURL with
      | some d => if pr.1.success && !d.isEmpty then some d else none
      | none => none
    match okURL with
    | some d => (⟨true, some d, some turl, some qrHash, none⟩, pr.2)
    | none => (⟨false, none, none, none, some "API generation failed"⟩, pr.2)
  else
    let style : LocalStyle :=
      ⟨"H", "image/png", 92, -2, 2, jsOrStr opts.custColor "#2D5A27",
       jsOrStr opts.custBg "#FFFFFF", size⟩
    match env.localRender qrString style with
    | .ok d => (⟨true, some d, some turl, some qrHash, none⟩, [.localRender qrString style])
    | .error m => (⟨false, none, none, none, some m⟩, [.localRender qrString style])

def generateEnhancedQR (env : GenEnv) (data : List (String × Json)) (opts : EnhancedOpts) :
    GenResult :=
  (generateEnhancedQRT env data opts).1

/-! ## Concrete environments and payloads used to instantiate the theorems -/

/-- Every network operation fails (both remote providers down). -/
def envAllDown : NetEnv :=
  ⟨fun _ => .error "network down", fun _ => .error "network down",
   fun _ => .error "conversion failed"⟩

/-- Network down everywhere and the local renderer also throwing. -/
def genEnvAllDown : GenEnv :=
  ⟨envAllDown, fun _ _ => .error "canvas crashed", "https://example.org", 1700000000000⟩

/-- Network down everywhere, local renderer succeeding. -/
def genEnvLocalOk : GenEnv :=
  ⟨envAllDown, fun _ _ => .ok "data:image/png;base64,AAAA", "https://example.org",
   1700000000000⟩

/-- The HEAD probe resolves with a non-ok status; plain GETs succeed. -/
def envProbeRejects : NetEnv :=
  ⟨fun _ => .ok false, fun _ => .ok true, fun _ => .ok "data:image/png;base64,QQ=="⟩

def samplePayload : List (String × Json) :=
  [("batchId", .str "B1"), ("eventId", .str "E1"), ("type", .str "collection"),
   ("herbSpecies", .str "Ashwagandha")]

/-! ## Basic evaluations of the embedding -/

example : jsTrim "  abc123 " = "abc123" := by rfl
example : jsTrim "  " = "" := by rfl
example : encodeURIComponent "\x7b\"a\":1\x7d" = "%7B%22a%22%3A1%7D" := by rfl
example : formEncode "%7B" = "%257B" := by rfl
example : generateHash "abc"
    = "ba7816bf8f01cfea414140de5dae2223b00361a396177a9cb410ff61f20015ad" := by rfl
example : generateHash ""
    = "e3b0c44298fc1c149afbf4c8996fb92427ae41e4649b934ca495991b7852b855" := by rfl
example : Json.parse "null" = some .null := by rfl
example : Json.parse "  true " = some (.bool true) := by rfl
example : Json.parse "12345" = some (.num 12345 0) := by rfl
example : Json.parse "-0" = some (.num 0 0) := by rfl
example : Json.parse "1.5" = some (.num 15 (-1)) := by rfl
example : Json.parse "2e3" = some (.num 2 3) := by rfl
example : Json.parse "abc123" = none := by rfl
example : Json.parse "" = none := by rfl
example : Json.parse "\x7b\x7d" = some (.obj []) := by rfl
example : Json.parse "\x7b\"a\": [1, \"x\"]\x7d"
    = some (.obj [("a", .arr [.num 1 0, .str "x"])]) := by rfl
example : Json.parse "01" = none := by rfl
example : Json.stringify (.obj [("a", .num 5 0), ("b", .str "x\"y")])
    = "\x7b\"a\":5,\"b\":\"x\\\"y\"\x7d" := by rfl
example : Json.parse (Json.stringify (.obj [("a", .num 5 0), ("b", .str "x\"y")]))
    = some (.obj [("a", .num 5 0), ("b", .str "x\"y")]) := by rfl

/-! ## Helper lemmas -/

theorem lookupLast_append (A B : List (String × Json)) (k : String) :
    lookupLast (A ++ B) k =
      match lookupLast B k with
      | some v => some v
      | none => lookupLast A k := by
  induction A with
  | nil =>
    simp only [List.nil_append]
    cases lookupLast B k <;> simp [lookupLast]
  | cons hd tl ih =>
    obtain ⟨k', v⟩ := hd
    simp only [List.cons_append, lookupLast, List.append_eq, ih]
    cases lookupLast B k with
    | some r => rfl
    | none => rfl

/-! ## Claim C3 -/

/-- Claim C3: for every input (environment, payload, input string), both
`generateQR` and `parseQRData` return a result value carrying a `success`
flag — `success = true` with no error, or `success = false` with an error
message; no exception escapes either operation (in the embedding both are
total functions into their result types, with every `throw` of the source
translated into a caught branch). -/
theorem c3_no_escape_result_shape (env : GenEnv) (data : List (String × Json))
    (title : String) (s : String) :
    ((generateQR env data title).success = true ∧ (generateQR env data title).error = none ∨
      (generateQR env data title).success = false ∧
        (generateQR env data title).error.isSome = true) ∧
    ((parseQRData s).success = true ∧ (parseQRData s).error = none ∨
      (parseQRData s).success = false ∧ (parseQRData s).error.isSome = true) := by
  constructor
  · simp only [generateQR, generateQRT]
    split
    · simp
    · split <;> simp
  · unfold parseQRData
    by_cases hv : (validateQRData s).valid = true
    · simp [hv]
    · simp only [hv, if_false]
      split <;> (try split) <;> (try split) <;> simp

/-! ## Claim C4 -/

/-- Claim C4 (as stated) is false: the input `""` fails JSON parsing, yet
`parseQRData` does not succeed on it — the synthesized bare identifier is the
empty (falsy) string, so the missing-event-ID branch throws. -/
theorem c4_counterexample :
    Json.parse "" = none ∧
      parseQRData "" =
        ⟨false, none, some "Invalid QR code format - missing event ID"⟩ := by
  constructor
  · rfl
  · rfl

/-- Claim C4, amended: for every input string on which JSON parsing fails
and whose trimmed form is non-empty, `parseQRData` synthesizes the
bare-identifier payload `{eventId: trim, type: 'direct_id', batchId: trim}`
and succeeds; when the trimmed form is empty, the synthesized `eventId` is
falsy and parsing fails with the missing-event-ID error. -/
theorem c4_bare_identifier_amended (s : String) (h : Json.parse s = none) :
    (jsTrim s ≠ "" → parseQRData s = ⟨true, some (bareIdPayload s), none⟩) ∧
    (jsTrim s = "" →
      parseQRData s = ⟨false, none, some "Invalid QR code format - missing event ID"⟩) := by
  have hval : validateQRData s = ⟨false, none, some "Invalid QR code format"⟩ := by
    unfold validateQRData
    rw [h]
  have htr : truthyProp (bareIdPayload s) "eventId" = !(jsTrim s).isEmpty := rfl
  unfold parseQRData
  rw [hval]
  simp only [Bool.false_eq_true, if_false]
  rw [h]
  constructor
  · intro hne
    have : (jsTrim s).isEmpty = false := by
      rcases hi : (jsTrim s).isEmpty with _ | _
      · rfl
      · exact absurd ((String.isEmpty_iff _).mp hi) hne
    simp [htr, this]
  · intro he
    have : (jsTrim s).isEmpty = true := (String.isEmpty_iff _).mpr he
    simp [htr, this]

/-- Witness for C4 at the claim's own example: `"abc123"` is not JSON, and
parsing yields `{success:true, data:{eventId:"abc123", batchId:"abc123",
type:"direct_id"}}`. -/
theorem c4_bare_identifier_amended_witness :
    Json.parse "abc123" = none ∧ jsTrim "abc123" ≠ "" ∧
      parseQRData "abc123" =
        ⟨true,
          some (.obj [("eventId", .str "abc123"), ("type", .str "direct_id"),
            ("batchId", .str "abc123")]),
          none⟩ :=
  ⟨rfl, by decide,
    (c4_bare_identifier_amended "abc123" rfl).1 (by decide)⟩

/-! ## Claim C9 -/

/-- Claim C9: an input that is valid JSON but whose value is not an object
with a truthy `eventId` never reaches the bare-identifier degrade path: for
every such value other than JSON `null`, `parseQRData` fails with the
missing-event-ID format error; for JSON `null` it fails with the message of
the TypeError thrown by the `eventId` access (amendment forced by the `null`
case). -/
theorem c9_valid_json_rejection (s : String) (v : Json) (h : Json.parse s = some v) :
    (v ≠ .null → truthyProp v "eventId" = false →
      parseQRData s = ⟨false, none, some "Invalid QR code format - missing event ID"⟩) ∧
    (v = .null → parseQRData s = ⟨false, none, some nullPropertyAccessMessage⟩) := by
  constructor
  · intro hnn hev
    have hval : validateQRData s = ⟨false, none, some "Missing required fields in QR code"⟩ := by
      unfold validateQRData
      rw [h]
      cases v with
      | null => exact absurd rfl hnn
      | bool b => simp [truthyProp, getProp]
      | num m e => simp [truthyProp, getProp]
      | str s' => simp [truthyProp, getProp]
      | arr xs => simp [truthyProp, getProp]
      | obj kvs => simp [hev]
    unfold parseQRData
    rw [hval]
    simp only [Bool.false_eq_true, if_false]
    rw [h]
    cases v with
    | null => exact absurd rfl hnn
    | bool b => simp [truthyProp, getProp]
    | num m e => simp [truthyProp, getProp]
    | str s' => simp [truthyProp, getProp]
    | arr xs => simp [truthyProp, getProp]
    | obj kvs => simp [hev]
  · intro hv
    subst hv
    have hval : validateQRData s = ⟨false, none, some "Invalid QR code format"⟩ := by
      unfold validateQRData
      rw [h]
    unfold parseQRData
    rw [hval]
    simp only [Bool.false_eq_true, if_false]
    rw [h]

/-- Witness for C9 at the claim's own examples `"12345"`, `"true"`, `"{}"`,
plus the amended `null` case. -/
theorem c9_valid_json_rejection_witness :
    parseQRData "12345" = ⟨false, none, some "Invalid QR code format - missing event ID"⟩ ∧
    parseQRData "true" = ⟨false, none, some "Invalid QR code format - missing event ID"⟩ ∧
    parseQRData "\x7b\x7d" = ⟨false, none, some "Invalid QR code format - missing event ID"⟩ ∧
    parseQRData "null" = ⟨false, none, some nullPropertyAccessMessage⟩ :=
  ⟨(c9_valid_json_rejection "12345" (.num 12345 0) rfl).1 (by simp) rfl,
   (c9_valid_json_rejection "true" (.bool true) rfl).1 (by simp) rfl,
   (c9_valid_json_rejection "\x7b\x7d" (.obj []) rfl).1 (by simp) rfl,
   (c9_valid_json_rejection "null" .null rfl).2 rfl⟩

/-! ## Claim C10 -/

/-- Claim C10: every payload serialized by the batch-QR path
(`generateBatchQR`) carries the extra field `network` with the fixed value
`"hyperledger-fabric"`, alongside `timestamp` and `version: "1.0"`; and
`generateBatchQR` feeds exactly that serialized payload into the tiered
pipeline with the standard options. -/
theorem c10_batch_network_field (bd : BatchData) (nowMs : Int) (env : NetEnv) :
    lookupLast (batchQRPayload bd nowMs) "network" = some (.str "hyperledger-fabric") ∧
    lookupLast (batchQRPayload bd nowMs) "version" = some (.str "1.0") ∧
    lookupLast (batchQRPayload bd nowMs) "timestamp" = some (.num nowMs 0) ∧
    generateBatchQRT env bd nowMs =
      generateQRWithAPIT env (Json.stringify (.obj (batchQRPayload bd nowMs))) stdApiOpts := by
  refine ⟨?_, ?_, ?_, rfl⟩ <;>
    · unfold batchQRPayload
      rw [lookupLast_append]
      rfl

/-! ## Claim C2 -/

/-- Claim C2 (as stated) is false: with both remote providers down and the
local renderer also failing (message "canvas crashed"), `generateQR` returns
the local renderer's error message, not `"All QR code APIs are
unavailable"`. -/
theorem c2_counterexample :
    generateQR genEnvAllDown samplePayload "QR" =
      ⟨false, none, none, none, some "canvas crashed"⟩ ∧
    ("canvas crashed" : String) ≠ "All QR code APIs are unavailable" :=
  ⟨rfl, by decide⟩

/-- Claim C2, amended: when both remote tiers fail, `generateQRWithAPI`
returns exactly `{success: false, error: "All QR code APIs are unavailable"}`
with no `dataURL` (and no `url`); `generateQR` then invokes the local
renderer, and if that third tier also fails, it returns `success: false`
with the local renderer's own error message instead. -/
theorem c2_exhaustion_amended :
    (∀ (env : NetEnv) (data : String) (oin : ApiOptionsIn) (e : String) (t1 : List NetCall)
        (r2 : Except String (Option ApiResult)) (t2 : List NetCall),
      tier1Run env (buildQRServerUrl data (effApiOptions oin)) = (.error e, t1) →
      tier2Run env (buildQuickChartUrl data (effApiOptions oin).size (effApiOptions oin).format)
        = (r2, t2) →
      (r2 = .ok none ∨ ∃ e2, r2 = .error e2) →
      generateQRWithAPI env data oin =
        ⟨false, none, none, some "All QR code APIs are unavailable"⟩) ∧
    (∀ (env : GenEnv) (data : List (String × Json)) (title m : String),
      (generateQRWithAPI env.net (enrichStringOf env.origin env.nowMs data) stdApiOpts).success
        = false →
      env.localRender (enrichStringOf env.origin env.nowMs data) generateQRLocalStyle
        = .error m →
      generateQR env data title = ⟨false, none, none, none, some m⟩) := by
  constructor
  · intro env data oin e t1 r2 t2 h1 h2 hr
    simp only [generateQRWithAPI, generateQRWithAPIT]
    rw [h1, h2]
    rcases hr with hr | ⟨e2, hr⟩ <;> subst hr <;> rfl
  · intro env data title m hs hl
    have hs' : (generateQRWithAPIT env.net (enrichStringOf env.origin env.nowMs data)
        stdApiOpts).1.success = false := hs
    simp only [generateQR, generateQRT]
    cases hd : (generateQRWithAPIT env.net (enrichStringOf env.origin env.nowMs data)
        stdApiOpts).1.dataURL with
    | none => simp [hd, hl]
    | some d => simp [hd, hs', hl]

/-- Witness for C2: at a concrete all-down environment both conjuncts of the
amended claim apply. -/
theorem c2_exhaustion_amended_witness :
    generateQRWithAPI envAllDown "x" stdApiOpts =
      ⟨false, none, none, some "All QR code APIs are unavailable"⟩ ∧
    generateQR genEnvAllDown samplePayload "QR" =
      ⟨false, none, none, none, some "canvas crashed"⟩ :=
  ⟨c2_exhaustion_amended.1 envAllDown "x" stdApiOpts "network down" _ _ _ rfl rfl
      (Or.inr ⟨"network down", rfl⟩),
   c2_exhaustion_amended.2 genEnvAllDown samplePayload "QR" "canvas crashed" rfl rfl⟩

/-! ## Claim C8 -/

/-- Claim C8 (as stated) is false: the style under which `generateTrackingQR`
runs the remote pipeline has margin 2 (`margin` is not in the preset, so the
destructuring default applies), not margin 1; the produced provider URL
carries `margin=2`. -/
theorem c8_counterexample :
    (effApiOptions QRApiService.trackingApiOpts).margin = 2 ∧ (2 : Nat) ≠ 1 ∧
    buildQRServerUrl "u" (effApiOptions QRApiService.trackingApiOpts) =
      "https://api.qrserver.com/v1/create-qr-code/?data=u&size=200x200&format=png&ecc=M&margin=2&color=2D5A27&bgcolor=FFFFFF" :=
  ⟨by rfl, by decide, by rfl⟩

/-- Claim C8, amended: `generateTrackingQR` runs the same tiered pipeline
with preset size 200 and errorCorrection M, but margin defaults to 2 on the
remote tiers; margin 1 (with width 200 and level M) is used only by the
local fallback renderer when the remote result is unsuccessful. -/
theorem c8_tracking_preset_amended (env : GenEnv) (url d : String) :
    QRApiService.generateTrackingQRT env.net url
      = generateQRWithAPIT env.net url QRApiService.trackingApiOpts ∧
    effApiOptions QRApiService.trackingApiOpts = ⟨200, "png", "M", 2, "2D5A27", "FFFFFF"⟩ ∧
    QRService.trackingLocalStyle = ⟨"M", "image/png", 92, -2, 1, "#000000", "#FFFFFF", 200⟩ ∧
    ((QRApiService.generateTrackingQR env.net url).success = false →
      env.localRender url QRService.trackingLocalStyle = .ok d →
      QRService.generateTrackingQR env url = ⟨true, some d, none⟩) := by
  refine ⟨by rfl, by rfl, by rfl, ?_⟩
  intro hs hl
  have hs' : (QRApiService.generateTrackingQRT env.net url).1.success = false := hs
  simp only [QRService.generateTrackingQR, QRService.generateTrackingQRT]
  simp [hs', hl]

/-- Witness for C8: with the remote tiers down and the local renderer
succeeding, the tracking entry point returns the locally rendered image. -/
theorem c8_tracking_preset_amended_witness :
    (QRApiService.generateTrackingQR genEnvLocalOk.net "https://example.org/track/E1").success
      = false ∧
    QRService.generateTrackingQR genEnvLocalOk "https://example.org/track/E1" =
      ⟨true, some "data:image/png;base64,AAAA", none⟩ :=
  ⟨rfl,
   (c8_tracking_preset_amended genEnvLocalOk "https://example.org/track/E1"
      "data:image/png;base64,AAAA").2.2.2 rfl rfl⟩

/-! ## Claim C5 -/

theorem qrserver_ne_quickchart (d : String) (o : ApiOptions) (d' : String) (sz : Nat)
    (f : String) : buildQRServerUrl d o ≠ buildQuickChartUrl d' sz f := by
  intro h
  have h8 : (buildQRServerUrl d o).data[8]? = (buildQuickChartUrl d' sz f).data[8]? := by
    rw [h]
  have hL : (buildQRServerUrl d o).data[8]? = some 'a' := by
    show ((qrserverBase ++ "?" ++
      formPairs [("data", encodeURIComponent d),
        ("size", natReprStr o.size ++ "x" ++ natReprStr o.size), ("format", o.format),
        ("ecc", o.errorCorrection), ("margin", natReprStr o.margin), ("color", o.color),
        ("bgcolor", o.backgroundColor)]).data)[8]? = some 'a'
    rw [String.data_append, List.getElem?_append, if_pos (by decide)]
    rfl
  have hR : (buildQuickChartUrl d' sz f).data[8]? = some 'q' := by
    show ((quickchartBase ++ "?" ++
      formPairs [("text", encodeURIComponent d'),
        ("size", natReprStr sz ++ "x" ++ natReprStr sz), ("format", f)]).data)[8]? = some 'q'
    rw [String.data_append, List.getElem?_append, if_pos (by decide)]
    rfl
  rw [hL, hR] at h8
  exact absurd h8 (by decide)

theorem tier1Run_trace_head (env : NetEnv) (u : String) :
    ∃ rest, (tier1Run env u).2 = .head u :: rest := by
  unfold tier1Run
  cases env.head u with
  | error e => exact ⟨[], rfl⟩
  | ok b =>
    cases b with
    | false => exact ⟨[], rfl⟩
    | true =>
      cases env.get u with
      | error e => exact ⟨[.get u], rfl⟩
      | ok bb =>
        cases env.blob u with
        | error e => exact ⟨[.get u, .blob u], rfl⟩
        | ok dd => exact ⟨[.get u, .blob u], rfl⟩

theorem tier2Run_trace (env : NetEnv) (u : String) :
    (tier2Run env u).2 = [.get u] ∨ (tier2Run env u).2 = [.get u, .blob u] := by
  unfold tier2Run
  cases env.get u with
  | error e => exact Or.inl rfl
  | ok b =>
    cases b with
    | false => exact Or.inl rfl
    | true =>
      cases env.blob u with
      | error e => exact Or.inr rfl
      | ok dd => exact Or.inr rfl

/-- Claim C5 (as stated) is false for the secondary remote tier: in a run
where the probe of the primary provider reports non-ok, the pipeline issues
the full QuickChart transfer without any preceding HEAD probe of that
URL. -/
theorem c5_counterexample :
    NetCall.get (buildQuickChartUrl "x" 300 "png")
      ∈ (generateQRWithAPIT envProbeRejects "x" stdApiOpts).2 ∧
    NetCall.head (buildQuickChartUrl "x" 300 "png")
      ∉ (generateQRWithAPIT envProbeRejects "x" stdApiOpts).2 := by
  decide

/-- Claim C5, amended: only the primary (QR Server) tier issues the
HEAD-style probe — every run's first network call is the HEAD probe of the
primary URL, and if that probe throws or reports non-ok, the primary URL is
never fetched in full; the QuickChart tier performs a direct GET with no
probe. -/
theorem c5_probe_amended (env : NetEnv) (data : String) (oin : ApiOptionsIn) :
    (∃ rest, (generateQRWithAPIT env data oin).2 =
      .head (buildQRServerUrl data (effApiOptions oin)) :: rest) ∧
    ((env.head (buildQRServerUrl data (effApiOptions oin)) = .ok false ∨
      (∃ e, env.head (buildQRServerUrl data (effApiOptions oin)) = .error e)) →
      NetCall.get (buildQRServerUrl data (effApiOptions oin)) ∉
        (generateQRWithAPIT env data oin).2) := by
  constructor
  · simp only [generateQRWithAPIT]
    obtain ⟨rest, hr⟩ := tier1Run_trace_head env (buildQRServerUrl data (effApiOptions oin))
    rcases ht : tier1Run env (buildQRServerUrl data (effApiOptions oin)) with ⟨r, t⟩
    rw [ht] at hr
    simp only at hr
    subst hr
    cases r with
    | ok rr => exact ⟨rest, rfl⟩
    | error ee =>
      rcases h2 : tier2Run env (buildQuickChartUrl data (effApiOptions oin).size
          (effApiOptions oin).format) with ⟨r2, t2⟩
      rcases r2 with e2 | _ | r2 <;> exact ⟨rest ++ t2, by simp⟩
  · intro hfail
    have hne := qrserver_ne_quickchart data (effApiOptions oin) data (effApiOptions oin).size
      (effApiOptions oin).format
    obtain ⟨e, ht⟩ : ∃ e, tier1Run env (buildQRServerUrl data (effApiOptions oin)) =
        (Except.error e, [NetCall.head (buildQRServerUrl data (effApiOptions oin))]) := by
      rcases hfail with hf | ⟨e, hf⟩
      · exact ⟨"QR Server API not accessible", by unfold tier1Run; rw [hf]⟩
      · exact ⟨e, by unfold tier1Run; rw [hf]⟩
    simp only [generateQRWithAPIT]
    rw [ht]
    rcases h2 : tier2Run env (buildQuickChartUrl data (effApiOptions oin).size
        (effApiOptions oin).format) with ⟨r2, t2⟩
    have htr := tier2Run_trace env (buildQuickChartUrl data (effApiOptions oin).size
      (effApiOptions oin).format)
    rw [h2] at htr
    simp only at htr
    rcases r2 with e2 | _ | r2 <;> rcases htr with htr | htr <;> subst htr <;> simp [hne]

/-- Witness for C5: with both remote tiers down, the trace starts with the
primary HEAD probe and contains no full fetch of the primary URL. -/
theorem c5_probe_amended_witness :
    (∃ rest, (generateQRWithAPIT envAllDown "x" stdApiOpts).2 =
      .head (buildQRServerUrl "x" (effApiOptions stdApiOpts)) :: rest) ∧
    NetCall.get (buildQRServerUrl "x" (effApiOptions stdApiOpts)) ∉
      (generateQRWithAPIT envAllDown "x" stdApiOpts).2 :=
  ⟨(c5_probe_amended envAllDown "x" stdApiOpts).1,
   (c5_probe_amended envAllDown "x" stdApiOpts).2 (Or.inr ⟨"network down", rfl⟩)⟩

/-- Claim C9 (as stated) is false at input `"null"`: the value is valid JSON
and not an object with an eventId, yet the reported error is the caught
TypeError message from the `eventId` access on `null`, not the service's
missing-event-ID format error. -/
theorem c9_null_counterexample :
    Json.parse "null" = some .null ∧
    parseQRData "null" = ⟨false, none, some nullPropertyAccessMessage⟩ ∧
    nullPropertyAccessMessage ≠ "Invalid QR code format - missing event ID" :=
  ⟨rfl, rfl, by decide⟩

/-! ## Round-trip infrastructure: characters and digits -/

theorem toNat_ofNat_lt (n : Nat) (h : n < 55296) : (Char.ofNat n).toNat = n := by
  have hv : n.isValidChar := Or.inl h
  simp only [Char.ofNat, hv, Char.ofNatAux, Char.toNat, UInt32.ofNat', dif_pos]
  rfl

theorem isDigit_iff (c : Char) : c.isDigit = true ↔ 48 ≤ c.toNat ∧ c.toNat ≤ 57 := by
  simp [Char.isDigit, Char.le_def, Char.toNat]
  rfl

theorem digitChar_toNat (n : Nat) (h : n < 10) : (digitChar n).toNat = 48 + n :=
  toNat_ofNat_lt _ (by omega)

theorem digitChar_isDigit (n : Nat) (h : n < 10) : (digitChar n).isDigit = true := by
  rw [isDigit_iff, digitChar_toNat n h]
  omega

theorem digitChar_eq_zero_iff (n : Nat) (h : n < 10) : digitChar n = '0' ↔ n = 0 := by
  constructor
  · intro he
    have h1 := congrArg Char.toNat he
    rw [digitChar_toNat n h] at h1
    have h0 : ('0' : Char).toNat = 48 := rfl
    rw [h0] at h1
    omega
  · intro he
    subst he
    rfl

theorem readDigitsAux_append (ds rest : List Char) (hds : ds.all Char.isDigit = true)
    (hrest : rest = [] ∨ ∃ c t, rest = c :: t ∧ c.isDigit = false) :
    readDigitsAux (ds ++ rest) = (ds, rest) := by
  induction ds with
  | nil =>
    rcases hrest with h | ⟨c, t, hct, hc⟩
    · subst h; rfl
    · subst hct
      simp [readDigitsAux, hc]
  | cons d ds ih =>
    simp only [List.all_cons, Bool.and_eq_true] at hds
    simp [readDigitsAux, hds.1, ih hds.2]

theorem digitsVal_append_singleton (A : List Char) (d : Char) :
    digitsVal (A ++ [d]) = 10 * digitsVal A + (d.toNat - 48) := by
  simp [digitsVal, List.foldl_append]

theorem natDigits_props : ∀ f n, n < f →
    (natDigits f n).all Char.isDigit = true ∧ digitsVal (natDigits f n) = n ∧
    natDigits f n ≠ [] ∧ ((natDigits f n).head? = some '0' → n = 0) := by
  intro f
  induction f with
  | zero => intro n h; omega
  | succ f ih =>
    intro n h
    by_cases h10 : n < 10
    · refine ⟨?_, ?_, ?_, ?_⟩
      · simp [natDigits, h10, digitChar_isDigit n h10]
      · simp [natDigits, h10, digitsVal, digitChar_toNat n h10]
      · simp [natDigits, h10]
      · simp only [natDigits, if_pos h10, List.head?_cons, Option.some_inj]
        intro hh
        exact (digitChar_eq_zero_iff n h10).mp hh
    · have hrec : n / 10 < f := by omega
      obtain ⟨ha, hv, hne, hh⟩ := ih (n / 10) hrec
      simp only [natDigits, if_neg h10]
      refine ⟨?_, ?_, ?_, ?_⟩
      · simp [List.all_append, ha, digitChar_isDigit (n % 10) (by omega)]
      · rw [digitsVal_append_singleton, hv, digitChar_toNat (n % 10) (by omega)]
        omega
      · simp
      · intro hhead
        obtain ⟨c, t, hA⟩ := List.exists_cons_of_ne_nil hne
        rw [hA] at hhead
        simp at hhead
        rw [hA] at hh
        simp at hh
        exact absurd (hh hhead) (by omega)

theorem natRepr_props (n : Nat) :
    (natRepr n).all Char.isDigit = true ∧ digitsVal (natRepr n) = n ∧
    natRepr n ≠ [] ∧ ((natRepr n).head? = some '0' → n = 0) :=
  natDigits_props (n + 1) n (by omega)

theorem numStop_rest (rest : List Char) (h : numStop rest) :
    rest = [] ∨ ∃ c t, rest = c :: t ∧ c.isDigit = false := by
  cases rest with
  | nil => exact Or.inl rfl
  | cons c t => exact Or.inr ⟨c, t, rfl, h.1⟩

theorem parseIntPart_natRepr (n : Nat) (rest : List Char) (hstop : numStop rest) :
    parseIntPart (natRepr n ++ rest) = some (n, rest) := by
  obtain ⟨ha, hv, hne, hh⟩ := natRepr_props n
  obtain ⟨c, t, hA⟩ := List.exists_cons_of_ne_nil hne
  by_cases h0 : c = '0'
  · have hn : n = 0 := hh (by rw [hA, h0]; rfl)
    subst hn
    have h00 : natRepr 0 = ['0'] := rfl
    rw [h00]
    simp [parseIntPart]
  · have hcd : c.isDigit = true := by
      rw [hA] at ha
      simp only [List.all_cons, Bool.and_eq_true] at ha
      exact ha.1
    have htd : t.all Char.isDigit = true := by
      rw [hA] at ha
      simp only [List.all_cons, Bool.and_eq_true] at ha
      exact ha.2
    rw [hA]
    simp only [List.cons_append, parseIntPart, if_neg h0, hcd, if_pos]
    rw [readDigitsAux_append t rest htd (numStop_rest rest hstop)]
    show some (digitsVal (c :: t), rest) = some (n, rest)
    rw [show (c :: t) = natRepr n from hA.symm, hv]

theorem parseFrac_stop (rest : List Char) (hstop : numStop rest) :
    parseFrac rest = some (0, 0, rest) := by
  cases rest with
  | nil => rfl
  | cons c t => simp [parseFrac, hstop.2.1]

theorem parseExp_stop (rest : List Char) (hstop : numStop rest) :
    parseExp rest = some (0, rest) := by
  cases rest with
  | nil => rfl
  | cons c t =>
    have : ¬(c = 'e' ∨ c = 'E') := by
      rintro (h | h) <;> [exact hstop.2.2.1 h; exact hstop.2.2.2 h]
    simp [parseExp, this]

theorem parseNumCore_natRepr (n : Nat) (rest : List Char) (hstop : numStop rest) :
    parseNumCore (natRepr n ++ rest) = some (((n : Int), 0), rest) := by
  unfold parseNumCore
  simp only [parseIntPart_natRepr n rest hstop, parseFrac_stop rest hstop,
    parseExp_stop rest hstop]
  norm_num

theorem natRepr_head_digit (n : Nat) :
    ∃ c t, natRepr n = c :: t ∧ c.isDigit = true := by
  obtain ⟨ha, _, hne, _⟩ := natRepr_props n
  obtain ⟨c, t, hA⟩ := List.exists_cons_of_ne_nil hne
  rw [hA] at ha
  simp only [List.all_cons, Bool.and_eq_true] at ha
  exact ⟨c, t, hA, ha.1⟩

theorem digit_ne_minus (c : Char) (h : c.isDigit = true) : c ≠ '-' := by
  intro he
  subst he
  exact absurd h (by decide)

theorem parseNum_intRepr (z : Int) (rest : List Char) (hstop : numStop rest) :
    parseNum (intRepr z ++ rest) = some (.num z 0, rest) := by
  by_cases hz : z < 0
  · have hsh : intRepr z = '-' :: natRepr z.natAbs := by simp [intRepr, hz]
    rw [hsh]
    show parseNum ('-' :: (natRepr z.natAbs ++ rest)) = some (.num z 0, rest)
    simp only [parseNum, if_pos (rfl : ('-' : Char) = '-'),
      parseNumCore_natRepr z.natAbs rest hstop]
    show some (Json.num (-((z.natAbs : Nat) : Int)) 0, rest) = some (Json.num z 0, rest)
    rw [show -((z.natAbs : Nat) : Int) = z by omega]
  · have hsh : intRepr z = natRepr z.toNat := by simp [intRepr, hz]
    obtain ⟨c, t, hA, hcd⟩ := natRepr_head_digit z.toNat
    rw [hsh, hA]
    simp only [List.cons_append, parseNum, if_neg (digit_ne_minus c hcd)]
    rw [show (c :: (t ++ rest)) = natRepr z.toNat ++ rest by rw [hA]; simp]
    simp only [parseNumCore_natRepr z.toNat rest hstop]
    have htz : ((z.toNat : Nat) : Int) = z := by omega
    rw [htz]

/-! ## Round-trip infrastructure: string literals -/

theorem hexVal_hexDigitL (n : Nat) (h : n < 16) : hexVal (hexDigitL n) = some n := by
  unfold hexDigitL hexVal
  by_cases h10 : n < 10
  · rw [if_pos h10]
    have ht : (Char.ofNat (48 + n)).toNat = 48 + n := toNat_ofNat_lt _ (by omega)
    rw [ht, if_pos (by omega)]
    congr 1
    omega
  · rw [if_neg h10]
    have ht : (Char.ofNat (87 + n)).toNat = 87 + n := toNat_ofNat_lt _ (by omega)
    rw [ht, if_neg (by omega), if_pos (by omega)]
    congr 1
    omega

theorem parseStrBody_esc (cs : List Char) (rest : List Char) :
    parseStrBody (escChars cs ++ '"' :: rest) = some (cs, rest) := by
  induction cs with
  | nil =>
    show parseStrBody ('"' :: rest) = some ([], rest)
    rw [parseStrBody.eq_def]
    rfl
  | cons c cs ih =>
    show parseStrBody ((escChar c ++ escChars cs) ++ '"' :: rest) = some (c :: cs, rest)
    rw [List.append_assoc]
    by_cases h1 : c = '"'
    · subst h1
      rw [show escChar '"' = ['\\', '"'] from rfl]
      simp only [List.cons_append, List.nil_append]
      rw [parseStrBody.eq_def]
      simp [ih]
    by_cases h2 : c = '\\'
    · subst h2
      rw [show escChar '\\' = ['\\', '\\'] from rfl]
      simp only [List.cons_append, List.nil_append]
      rw [parseStrBody.eq_def]
      simp [ih]
    by_cases h3 : c = '\x08'
    · subst h3
      rw [show escChar '\x08' = ['\\', 'b'] from rfl]
      simp only [List.cons_append, List.nil_append]
      rw [parseStrBody.eq_def]
      simp [ih]
    by_cases h4 : c = '\x09'
    · subst h4
      rw [show escChar '\x09' = ['\\', 't'] from rfl]
      simp only [List.cons_append, List.nil_append]
      rw [parseStrBody.eq_def]
      simp [ih]
    by_cases h5 : c = '\x0a'
    · subst h5
      rw [show escChar '\x0a' = ['\\', 'n'] from rfl]
      simp only [List.cons_append, List.nil_append]
      rw [parseStrBody.eq_def]
      simp [ih]
    by_cases h6 : c = '\x0c'
    · subst h6
      rw [show escChar '\x0c' = ['\\', 'f'] from rfl]
      simp only [List.cons_append, List.nil_append]
      rw [parseStrBody.eq_def]
      simp [ih]
    by_cases h7 : c = '\x0d'
    · subst h7
      rw [show escChar '\x0d' = ['\\', 'r'] from rfl]
      simp only [List.cons_append, List.nil_append]
      rw [parseStrBody.eq_def]
      simp [ih]
    by_cases h8 : c.toNat < 32
    · rw [show escChar c = ['\\', 'u', '0', '0', hexDigitL (c.toNat / 16),
          hexDigitL (c.toNat % 16)] by
        unfold escChar
        rw [if_neg h1, if_neg h2, if_neg h3, if_neg h4, if_neg h5, if_neg h6, if_neg h7,
          if_pos h8]]
      simp only [List.cons_append, List.nil_append]
      rw [parseStrBody.eq_def]
      have e1 : hexVal (hexDigitL (c.toNat / 16)) = some (c.toNat / 16) :=
        hexVal_hexDigitL _ (by omega)
      have e2 : hexVal (hexDigitL (c.toNat % 16)) = some (c.toNat % 16) :=
        hexVal_hexDigitL _ (by omega)
      have hc : Char.ofNat (16 * (c.toNat / 16) + c.toNat % 16) = c := by
        rw [show 16 * (c.toNat / 16) + c.toNat % 16 = c.toNat by omega]
        exact Char.ofNat_toNat c
      simp [show hexVal '0' = some 0 from rfl, e1, e2, hc, ih]
    · rw [show escChar c = [c] by
        unfold escChar
        rw [if_neg h1, if_neg h2, if_neg h3, if_neg h4, if_neg h5, if_neg h6, if_neg h7,
          if_neg h8]]
      simp only [List.cons_append, List.nil_append]
      rw [parseStrBody.eq_def]
      simp [if_neg h1, if_neg h2, if_neg h8, ih]

theorem skipWs_not (c : Char) (l : List Char) (h : isJsonWs c = false) :
    skipWs (c :: l) = c :: l := by
  rw [skipWs.eq_def]
  simp [h]

theorem numStop_nil : numStop [] := trivial

theorem numStop_comma (l : List Char) : numStop (',' :: l) :=
  ⟨by decide, by decide, by decide, by decide⟩

theorem numStop_rbracket (l : List Char) : numStop (']' :: l) :=
  ⟨by decide, by decide, by decide, by decide⟩

theorem numStop_rbrace (l : List Char) : numStop ('\x7d' :: l) :=
  ⟨by decide, by decide, by decide, by decide⟩

theorem isDigit_not_special (c : Char) (h : c.isDigit = true) :
    isJsonWs c = false ∧ c ≠ 'n' ∧ c ≠ 't' ∧ c ≠ 'f' ∧ c ≠ '"' ∧ c ≠ '[' ∧
      c ≠ '\x7b' ∧ c ≠ ']' ∧ c ≠ '\x7d' := by
  have key : ∀ d : Char, d.isDigit = false → c ≠ d := by
    intro d hd he
    rw [he] at h
    rw [h] at hd
    cases hd
  refine ⟨?_, key 'n' (by decide), key 't' (by decide), key 'f' (by decide),
    key '"' (by decide), key '[' (by decide), key '\x7b' (by decide),
    key ']' (by decide), key '\x7d' (by decide)⟩
  simp only [isJsonWs, Bool.or_eq_false_iff, decide_eq_false_iff_not]
  exact ⟨⟨⟨key ' ' (by decide), key '\x09' (by decide)⟩, key '\x0a' (by decide)⟩,
    key '\x0d' (by decide)⟩

theorem jChars_shape (j : Json) :
    ∃ c t, jChars j = c :: t ∧ isJsonWs c = false ∧ c ≠ ']' ∧ c ≠ '\x7d' := by
  cases j with
  | num m e =>
    by_cases hm : m < 0
    · refine ⟨'-', natRepr m.natAbs, by simp [jChars, intRepr, hm], ?_, ?_, ?_⟩ <;> decide
    · obtain ⟨c, t, hA, hcd⟩ := natRepr_head_digit m.toNat
      obtain ⟨hws, _, _, _, _, _, _, hne1, hne2⟩ := isDigit_not_special c hcd
      exact ⟨c, t, by simp [jChars, intRepr, hm, hA], hws, hne1, hne2⟩
  | bool b =>
    rcases b with _ | _
    · refine ⟨'f', _, rfl, ?_, ?_, ?_⟩ <;> decide
    · refine ⟨'t', _, rfl, ?_, ?_, ?_⟩ <;> decide
  | null => refine ⟨'n', _, rfl, ?_, ?_, ?_⟩ <;> decide
  | str s => refine ⟨'"', _, rfl, ?_, ?_, ?_⟩ <;> decide
  | arr xs => refine ⟨'[', _, rfl, ?_, ?_, ?_⟩ <;> decide
  | obj kvs => refine ⟨'\x7b', _, rfl, ?_, ?_, ?_⟩ <;> decide

theorem jElemsChars_shape (x : Json) (xs : List Json) :
    ∃ c t, jElemsChars (x :: xs) = c :: t ∧ isJsonWs c = false ∧ c ≠ ']' ∧ c ≠ '\x7d' := by
  obtain ⟨c, t, hj, h1, h2, h3⟩ := jChars_shape x
  cases xs with
  | nil => exact ⟨c, t, by simp [jElemsChars, hj], h1, h2, h3⟩
  | cons y ys =>
    exact ⟨c, t ++ ',' :: jElemsChars (y :: ys), by simp [jElemsChars, hj], h1, h2, h3⟩

theorem intRepr_shape (z : Int) :
    ∃ c t, intRepr z = c :: t ∧ (c = '-' ∨ c.isDigit = true) := by
  by_cases hz : z < 0
  · exact ⟨'-', natRepr z.natAbs, by simp [intRepr, hz], Or.inl rfl⟩
  · obtain ⟨c, t, hA, hcd⟩ := natRepr_head_digit z.toNat
    exact ⟨c, t, by simp [intRepr, hz, hA], Or.inr hcd⟩

theorem num_head_facts (c : Char) (h : c = '-' ∨ c.isDigit = true) :
    isJsonWs c = false ∧ c ≠ 'n' ∧ c ≠ 't' ∧ c ≠ 'f' ∧ c ≠ '"' ∧ c ≠ '[' ∧ c ≠ '\x7b' := by
  rcases h with h | h
  · subst h
    exact ⟨by decide, by decide, by decide, by decide, by decide, by decide, by decide⟩
  · obtain ⟨hws, h1, h2, h3, h4, h5, h6, _, _⟩ := isDigit_not_special c h
    exact ⟨hws, h1, h2, h3, h4, h5, h6⟩

theorem jMembersChars_head (k : String) (v : Json) (kvs : List (String × Json)) :
    ∃ t, jMembersChars ((k, v) :: kvs) = '"' :: t := by
  cases kvs with
  | nil => exact ⟨escChars k.data ++ ['"'] ++ ':' :: jChars v, by simp [jMembersChars, strLit]⟩
  | cons m ms =>
    exact ⟨escChars k.data ++ ['"'] ++ ':' :: jChars v ++ ',' :: jMembersChars (m :: ms),
      by simp [jMembersChars, strLit]⟩

mutual

theorem parseV_rt : ∀ (j : Json) (f : Nat) (rest : List Char), jWF j = true → numStop rest →
    (jChars j).length ≤ f → parseV f (jChars j ++ rest) = some (j, rest)
  | .null, f, rest, _, _, hf => by
    cases f with
    | zero => simp [jChars] at hf
    | succ f' =>
      show parseV (f' + 1) (jChars .null ++ rest) = some (.null, rest)
      rw [show jChars .null = ['n', 'u', 'l', 'l'] from rfl]
      simp only [List.cons_append, List.nil_append]
      rw [parseV.eq_def]
      simp [skipWs_not 'n' _ (by decide)]
  | .bool true, f, rest, _, _, hf => by
    cases f with
    | zero => simp [jChars] at hf
    | succ f' =>
      show parseV (f' + 1) (jChars (.bool true) ++ rest) = some (.bool true, rest)
      rw [show jChars (.bool true) = ['t', 'r', 'u', 'e'] from rfl]
      simp only [List.cons_append, List.nil_append]
      rw [parseV.eq_def]
      simp [skipWs_not 't' _ (by decide)]
  | .bool false, f, rest, _, _, hf => by
    cases f with
    | zero => simp [jChars] at hf
    | succ f' =>
      show parseV (f' + 1) (jChars (.bool false) ++ rest) = some (.bool false, rest)
      rw [show jChars (.bool false) = ['f', 'a', 'l', 's', 'e'] from rfl]
      simp only [List.cons_append, List.nil_append]
      rw [parseV.eq_def]
      simp [skipWs_not 'f' _ (by decide)]
  | .str s, f, rest, _, _, hf => by
    cases f with
    | zero => simp [jChars, strLit] at hf
    | succ f' =>
      show parseV (f' + 1) (jChars (.str s) ++ rest) = some (.str s, rest)
      rw [show jChars (.str s) = '"' :: escChars s.data ++ ['"'] from rfl]
      rw [show ('"' :: escChars s.data ++ ['"']) ++ rest
        = '"' :: (escChars s.data ++ '"' :: rest) by simp]
      rw [parseV.eq_def]
      have hmk : String.mk s.data = s := rfl
      simp [skipWs_not '"' _ (by decide), parseStrBody_esc, hmk]
  | .num m e, f, rest, hwf, hstop, hf => by
    have he : e = 0 := by simpa [jWF] using hwf
    subst he
    obtain ⟨c, t, hA, hor⟩ := intRepr_shape m
    obtain ⟨hws, hn1, hn2, hn3, hn4, hn5, hn6⟩ := num_head_facts c hor
    cases f with
    | zero =>
      rw [show jChars (.num m 0) = intRepr m from rfl, hA] at hf
      simp at hf
    | succ f' =>
      show parseV (f' + 1) (intRepr m ++ rest) = some (.num m 0, rest)
      rw [hA]
      simp only [List.cons_append]
      rw [parseV.eq_def]
      simp only [skipWs_not c _ hws]
      simp only [if_neg hn1, if_neg hn2, if_neg hn3, if_neg hn4, if_neg hn5, if_neg hn6]
      rw [show (c :: (t ++ rest)) = intRepr m ++ rest by rw [hA]; simp]
      rw [parseNum_intRepr m rest hstop]
  | .arr [], f, rest, _, _, hf => by
    cases f with
    | zero => simp [jChars, jElemsChars] at hf
    | succ f' =>
      show parseV (f' + 1) (jChars (.arr []) ++ rest) = some (.arr [], rest)
      rw [show jChars (.arr []) = ['[', ']'] by simp [jChars, jElemsChars]]
      simp only [List.cons_append, List.nil_append]
      rw [parseV.eq_def]
      simp [skipWs_not '[' _ (by decide), skipWs_not ']' _ (by decide)]
  | .arr (x :: xs), f, rest, hwf, _, hf => by
    have hlen2 : (jChars (.arr (x :: xs))).length = (jElemsChars (x :: xs)).length + 2 := by
      simp [jChars]
    cases f with
    | zero => omega
    | succ f' =>
      obtain ⟨c0, t0, hE, hws0, hnb0, _⟩ := jElemsChars_shape x xs
      have h2 := parseElems_rt (x :: xs) (by simp) f' rest (by simpa [jWF] using hwf)
        (by omega)
      show parseV (f' + 1) (jChars (.arr (x :: xs)) ++ rest) = some (.arr (x :: xs), rest)
      rw [show jChars (.arr (x :: xs)) ++ rest
        = '[' :: (c0 :: (t0 ++ ']' :: rest)) by
          rw [show jChars (.arr (x :: xs)) = '[' :: jElemsChars (x :: xs) ++ [']'] from rfl,
            hE]
          simp]
      rw [parseV.eq_def]
      simp [skipWs_not '[' _ (by decide), skipWs_not c0 _ hws0]
      split
      · rename_i heq
        exact absurd (List.head_eq_of_cons_eq heq.symm).symm hnb0
      · rw [show (c0 :: (t0 ++ ']' :: rest)) = jElemsChars (x :: xs) ++ ']' :: rest by
          rw [hE]; simp]
        rw [h2]
  | .obj [], f, rest, _, _, hf => by
    cases f with
    | zero => simp [jChars, jMembersChars] at hf
    | succ f' =>
      show parseV (f' + 1) (jChars (.obj []) ++ rest) = some (.obj [], rest)
      rw [show jChars (.obj []) = ['\x7b', '\x7d'] by simp [jChars, jMembersChars]]
      simp only [List.cons_append, List.nil_append]
      rw [parseV.eq_def]
      simp [skipWs_not '\x7b' _ (by decide), skipWs_not '\x7d' _ (by decide)]
  | .obj ((k, v) :: kvs), f, rest, hwf, _, hf => by
    have hlen2 : (jChars (.obj ((k, v) :: kvs))).length
        = (jMembersChars ((k, v) :: kvs)).length + 2 := by
      simp [jChars]
    cases f with
    | zero => omega
    | succ f' =>
      obtain ⟨t0, hM⟩ := jMembersChars_head k v kvs
      have h2 := parseMembers_rt ((k, v) :: kvs) (by simp) f' rest
        (by simpa [jWF] using hwf) (by omega)
      show parseV (f' + 1) (jChars (.obj ((k, v) :: kvs)) ++ rest)
        = some (.obj ((k, v) :: kvs), rest)
      rw [show jChars (.obj ((k, v) :: kvs)) ++ rest
        = '\x7b' :: ('"' :: (t0 ++ '\x7d' :: rest)) by
          rw [show jChars (.obj ((k, v) :: kvs))
            = '\x7b' :: jMembersChars ((k, v) :: kvs) ++ ['\x7d'] from rfl, hM]
          simp]
      rw [parseV.eq_def]
      simp [skipWs_not '\x7b' _ (by decide), skipWs_not '"' _ (by decide)]
      rw [show ('"' :: (t0 ++ '\x7d' :: rest))
        = jMembersChars ((k, v) :: kvs) ++ '\x7d' :: rest by rw [hM]; simp]
      rw [h2]

theorem parseElems_rt : ∀ (xs : List Json), xs ≠ [] → ∀ (f : Nat) (rest : List Char),
    jlWF xs = true → (jElemsChars xs).length < f →
    parseElems f (jElemsChars xs ++ ']' :: rest) = some (xs, rest)
  | [], h => absurd rfl h
  | [x], _ => fun f rest hwf hf => by
    cases f with
    | zero => omega
    | succ f' =>
      have hwx : jWF x = true := by simpa [jlWF] using hwf
      have hlen : (jChars x).length ≤ f' := by
        have heq : (jElemsChars [x]).length = (jChars x).length := by simp [jElemsChars]
        omega
      have h1 := parseV_rt x f' (']' :: rest) hwx (numStop_rbracket rest) hlen
      rw [show jElemsChars [x] = jChars x from rfl]
      rw [parseElems.eq_def]
      simp [h1, skipWs_not ']' _ (by decide)]
  | x :: y :: ys, _ => fun f rest hwf hf => by
    cases f with
    | zero => omega
    | succ f' =>
      have hwx : jWF x = true ∧ jlWF (y :: ys) = true := by
        simpa [jlWF, Bool.and_eq_true] using hwf
      have hlen2 : (jElemsChars (x :: y :: ys)).length
          = (jChars x).length + 1 + (jElemsChars (y :: ys)).length := by
        simp [jElemsChars]
        omega
      have h1 := parseV_rt x f' (',' :: (jElemsChars (y :: ys) ++ ']' :: rest)) hwx.1
        (numStop_comma _) (by omega)
      have h2 := parseElems_rt (y :: ys) (by simp) f' rest hwx.2 (by omega)
      rw [show jElemsChars (x :: y :: ys) = jChars x ++ ',' :: jElemsChars (y :: ys) from rfl]
      rw [show (jChars x ++ ',' :: jElemsChars (y :: ys)) ++ ']' :: rest
        = jChars x ++ ',' :: (jElemsChars (y :: ys) ++ ']' :: rest) by simp]
      rw [parseElems.eq_def]
      simp [h1, skipWs_not ',' _ (by decide), h2]

theorem parseMembers_rt : ∀ (kvs : List (String × Json)), kvs ≠ [] →
    ∀ (f : Nat) (rest : List Char), joWF kvs = true →
    (jMembersChars kvs).length < f →
    parseMembers f (jMembersChars kvs ++ '\x7d' :: rest) = some (kvs, rest)
  | [], h => absurd rfl h
  | [(k, v)], _ => fun f rest hwf hf => by
    cases f with
    | zero => omega
    | succ f' =>
      have hwv : jWF v = true := by simpa [joWF] using hwf
      have hlen2 : (jMembersChars [(k, v)]).length
          = (strLit k).length + 1 + (jChars v).length := by
        simp [jMembersChars]
        omega
      have h1 := parseV_rt v f' ('\x7d' :: rest) hwv (numStop_rbrace rest) (by omega)
      have hmk : String.mk k.data = k := rfl
      rw [show jMembersChars [(k, v)] = strLit k ++ ':' :: jChars v from rfl]
      rw [show (strLit k ++ ':' :: jChars v) ++ '\x7d' :: rest
        = '"' :: (escChars k.data ++ '"' :: (':' :: (jChars v ++ '\x7d' :: rest))) by
          simp [strLit]]
      rw [parseMembers.eq_def]
      simp [skipWs_not '"' _ (by decide), parseStrBody_esc, skipWs_not ':' _ (by decide),
        h1, skipWs_not '\x7d' _ (by decide), hmk]
  | (k, v) :: m :: ms, _ => fun f rest hwf hf => by
    cases f with
    | zero => omega
    | succ f' =>
      have hwv : jWF v = true ∧ joWF (m :: ms) = true := by
        simpa [joWF, Bool.and_eq_true] using hwf
      have hlen2 : (jMembersChars ((k, v) :: m :: ms)).length
          = (strLit k).length + 1 + (jChars v).length + 1
            + (jMembersChars (m :: ms)).length := by
        simp [jMembersChars]
        omega
      have h1 := parseV_rt v f' (',' :: (jMembersChars (m :: ms) ++ '\x7d' :: rest)) hwv.1
        (numStop_comma _) (by omega)
      have h2 := parseMembers_rt (m :: ms) (by simp) f' rest hwv.2 (by omega)
      have hmk : String.mk k.data = k := rfl
      rw [show jMembersChars ((k, v) :: m :: ms)
        = strLit k ++ ':' :: jChars v ++ ',' :: jMembersChars (m :: ms) from rfl]
      rw [show (strLit k ++ ':' :: jChars v ++ ',' :: jMembersChars (m :: ms))
            ++ '\x7d' :: rest
        = '"' :: (escChars k.data ++ '"' :: (':' :: (jChars v
            ++ ',' :: (jMembersChars (m :: ms) ++ '\x7d' :: rest)))) by
          simp [strLit]]
      rw [parseMembers.eq_def]
      simp [skipWs_not '"' _ (by decide), parseStrBody_esc, skipWs_not ':' _ (by decide),
        h1, skipWs_not ',' _ (by decide), h2, hmk]

end

/-- `JSON.parse` inverts `JSON.stringify` on every model-well-formed value
(all numbers integral). -/
theorem Json.parse_stringify (j : Json) (h : jWF j = true) :
    Json.parse (Json.stringify j) = some j := by
  unfold Json.parse Json.stringify Json.parseChars
  have hdata : (String.mk (jChars j)).data = jChars j := rfl
  rw [hdata]
  have hp := parseV_rt j ((jChars j).length + 1) [] h numStop_nil (by omega)
  rw [List.append_nil] at hp
  simp [hp, skipWs]

/-! ## Enrichment lemmas -/

theorem lookupLast_map_replace (kvs : List (String × Json)) (k k' : String) (v : Json)
    (h : k' ≠ k) :
    lookupLast (kvs.map fun p => if p.1 = k then (k, v) else p) k' = lookupLast kvs k' := by
  induction kvs with
  | nil => rfl
  | cons hd tl ih =>
    obtain ⟨k1, v1⟩ := hd
    show lookupLast ((if k1 = k then (k, v) else (k1, v1)) ::
      (tl.map fun p => if p.1 = k then (k, v) else p)) k' = lookupLast ((k1, v1) :: tl) k'
    by_cases h1 : k1 = k
    · subst h1
      rw [if_pos rfl]
      show lookupLast ((k1, v) :: (tl.map fun p => if p.1 = k1 then (k1, v) else p)) k'
        = lookupLast ((k1, v1) :: tl) k'
      simp only [lookupLast, ih]
      cases lookupLast tl k' with
      | some r => rfl
      | none => rw [if_neg (Ne.symm h), if_neg (Ne.symm h)]
    · rw [if_neg h1]
      simp only [lookupLast, ih]

theorem lookupLast_objInsert_ne (kvs : List (String × Json)) (k : String) (v : Json)
    (k' : String) (h : k' ≠ k) :
    lookupLast (objInsert kvs k v) k' = lookupLast kvs k' := by
  unfold objInsert
  split
  · exact lookupLast_map_replace kvs k k' v h
  · rw [lookupLast_append]
    simp [lookupLast, if_neg (Ne.symm h)]

theorem joWF_append (A B : List (String × Json)) :
    joWF (A ++ B) = (joWF A && joWF B) := by
  induction A with
  | nil => simp [joWF]
  | cons hd tl ih =>
    obtain ⟨k1, v1⟩ := hd
    simp [joWF, ih, Bool.and_assoc]

theorem joWF_map_replace (kvs : List (String × Json)) (k : String) (v : Json)
    (hv : jWF v = true) (h : joWF kvs = true) :
    joWF (kvs.map fun p => if p.1 = k then (k, v) else p) = true := by
  induction kvs with
  | nil => rfl
  | cons hd tl ih =>
    obtain ⟨k1, v1⟩ := hd
    simp only [joWF, Bool.and_eq_true] at h
    show joWF ((if k1 = k then (k, v) else (k1, v1)) ::
      (tl.map fun p => if p.1 = k then (k, v) else p)) = true
    by_cases h1 : k1 = k
    · rw [if_pos h1]
      show joWF ((k, v) :: (tl.map fun p => if p.1 = k then (k, v) else p)) = true
      simp [joWF, hv, ih h.2]
    · rw [if_neg h1]
      show joWF ((k1, v1) :: (tl.map fun p => if p.1 = k then (k, v) else p)) = true
      simp [joWF, h.1, ih h.2]

theorem joWF_objInsert (kvs : List (String × Json)) (k : String) (v : Json)
    (hv : jWF v = true) (h : joWF kvs = true) : joWF (objInsert kvs k v) = true := by
  unfold objInsert
  split
  · exact joWF_map_replace kvs k v hv h
  · rw [joWF_append]
    simp [h, joWF, hv]

theorem joWF_enrich (origin : String) (nowMs : Int) (data : List (String × Json))
    (h : joWF data = true) : joWF (enrichPayload origin nowMs data) = true := by
  unfold enrichPayload
  apply joWF_objInsert _ _ _ (by rfl)
  apply joWF_objInsert _ _ _ (by rfl)
  exact joWF_objInsert _ _ _ (by rfl) h

theorem lookupLast_enrich (origin : String) (nowMs : Int) (data : List (String × Json))
    (k : String) (h1 : k ≠ "trackingUrl") (h2 : k ≠ "timestamp") (h3 : k ≠ "version") :
    lookupLast (enrichPayload origin nowMs data) k = lookupLast data k := by
  unfold enrichPayload
  rw [lookupLast_objInsert_ne _ _ _ _ h3, lookupLast_objInsert_ne _ _ _ _ h2,
    lookupLast_objInsert_ne _ _ _ _ h1]

/-! ## Claim C1 -/

/-- Claim C1: for every payload (with integral numeric fields) whose
`batchId`, `eventId` and `type` are non-empty strings, serializing the
enriched payload exactly as `generateQR` does and feeding the string to
`parseQRData` succeeds, returning the enriched object itself, whose
`batchId`, `eventId` and `type` equal the originals. -/
theorem c1_generate_parse_roundtrip (origin : String) (nowMs : Int)
    (data : List (String × Json)) (b e t : String)
    (hwf : joWF data = true)
    (hb : lookupLast data "batchId" = some (.str b)) (hbne : b ≠ "")
    (he : lookupLast data "eventId" = some (.str e)) (hene : e ≠ "")
    (ht : lookupLast data "type" = some (.str t)) (htne : t ≠ "") :
    parseQRData (enrichStringOf origin nowMs data) =
      ⟨true, some (.obj (enrichPayload origin nowMs data)), none⟩ ∧
    lookupLast (enrichPayload origin nowMs data) "batchId" = some (.str b) ∧
    lookupLast (enrichPayload origin nowMs data) "eventId" = some (.str e) ∧
    lookupLast (enrichPayload origin nowMs data) "type" = some (.str t) := by
  have hwfE : jWF (.obj (enrichPayload origin nowMs data)) = true := by
    simpa [jWF] using joWF_enrich origin nowMs data hwf
  have hp : Json.parse (enrichStringOf origin nowMs data)
      = some (.obj (enrichPayload origin nowMs data)) :=
    Json.parse_stringify _ hwfE
  have hbE : lookupLast (enrichPayload origin nowMs data) "batchId" = some (.str b) := by
    rw [lookupLast_enrich _ _ _ _ (by decide) (by decide) (by decide), hb]
  have heE : lookupLast (enrichPayload origin nowMs data) "eventId" = some (.str e) := by
    rw [lookupLast_enrich _ _ _ _ (by decide) (by decide) (by decide), he]
  have htE : lookupLast (enrichPayload origin nowMs data) "type" = some (.str t) := by
    rw [lookupLast_enrich _ _ _ _ (by decide) (by decide) (by decide), ht]
  have isEmpty_false : ∀ s : String, s ≠ "" → s.isEmpty = false := by
    intro s hs
    rcases hE : s.isEmpty with _ | _
    · rfl
    · exact absurd ((String.isEmpty_iff s).mp hE) hs
  have hbt : truthyProp (.obj (enrichPayload origin nowMs data)) "batchId" = true := by
    simp [truthyProp, getProp, hbE, jsTruthy, isEmpty_false b hbne]
  have het : truthyProp (.obj (enrichPayload origin nowMs data)) "eventId" = true := by
    simp [truthyProp, getProp, heE, jsTruthy, isEmpty_false e hene]
  have htt : truthyProp (.obj (enrichPayload origin nowMs data)) "type" = true := by
    simp [truthyProp, getProp, htE, jsTruthy, isEmpty_false t htne]
  have hval : validateQRData (enrichStringOf origin nowMs data)
      = ⟨true, some (.obj (enrichPayload origin nowMs data)), none⟩ := by
    unfold validateQRData
    rw [hp]
    simp [hbt, het, htt]
  refine ⟨?_, hbE, heE, htE⟩
  unfold parseQRData
  rw [hval]
  rfl

/-- Witness for C1 at the sample payload (batchId "B1", eventId "E1",
type "collection", herbSpecies "Ashwagandha"). -/
theorem c1_generate_parse_roundtrip_witness :
    joWF samplePayload = true ∧
    parseQRData (enrichStringOf "https://example.org" 1700000000000 samplePayload) =
      ⟨true, some (.obj (enrichPayload "https://example.org" 1700000000000 samplePayload)),
        none⟩ ∧
    lookupLast (enrichPayload "https://example.org" 1700000000000 samplePayload) "batchId"
      = some (.str "B1") :=
  ⟨by rfl,
   (c1_generate_parse_roundtrip "https://example.org" 1700000000000 samplePayload
      "B1" "E1" "collection" (by rfl) (by rfl) (by decide) (by rfl) (by decide) (by rfl)
      (by decide)).1,
   (c1_generate_parse_roundtrip "https://example.org" 1700000000000 samplePayload
      "B1" "E1" "collection" (by rfl) (by rfl) (by decide) (by rfl) (by decide) (by rfl)
      (by decide)).2.1⟩

/-! ## Claim C6: percent-encoding of the provider URLs

Helper lemmas: UTF-8 and percent-decoding invert the encoders, and
`getParam` extracts the first query pair of a built URL. -/

theorem char_toNat_lt (c : Char) : c.toNat < 1114112 := by
  rcases c.valid with h | ⟨h1, h2⟩
  · exact Nat.lt_trans h (by norm_num)
  · exact h2

theorem utf8Decode_utf8Bytes (c : Char) (bs : List Nat) (f : Nat) :
    utf8Decode (f + 1) (utf8Bytes c ++ bs) = (utf8Decode f bs).map (fun l => c :: l) := by
  have hv := char_toNat_lt c
  unfold utf8Bytes
  by_cases h1 : c.toNat < 128
  · simp only [if_pos h1, List.cons_append, List.nil_append]
    rw [utf8Decode.eq_def]
    simp only [if_pos h1, Char.ofNat_toNat]
  · by_cases h2 : c.toNat < 2048
    · simp only [if_neg h1, if_pos h2, List.cons_append, List.nil_append]
      rw [utf8Decode.eq_def]
      have g1 : ¬ (192 + c.toNat / 64 < 128) := by omega
      have g2 : ¬ (192 + c.toNat / 64 < 192) := by omega
      have g3 : 192 + c.toNat / 64 < 224 := by omega
      have g4 : (128 + c.toNat % 64) / 64 = 2 := by omega
      simp [if_neg g1, if_neg g2, if_pos g3, g4]
      rw [show c.toNat / 64 * 64 + c.toNat % 64 = c.toNat from by omega, Char.ofNat_toNat]
    · by_cases h3 : c.toNat < 65536
      · simp only [if_neg h1, if_neg h2, if_pos h3, List.cons_append, List.nil_append]
        rw [utf8Decode.eq_def]
        have g1 : ¬ (224 + c.toNat / 4096 < 128) := by omega
        have g2 : ¬ (224 + c.toNat / 4096 < 192) := by omega
        have g3 : ¬ (224 + c.toNat / 4096 < 224) := by omega
        have g4 : 224 + c.toNat / 4096 < 240 := by omega
        have g5 : (128 + c.toNat / 64 % 64) / 64 = 2 := by omega
        have g6 : (128 + c.toNat % 64) / 64 = 2 := by omega
        simp [if_neg g1, if_neg g2, if_neg g3, if_pos g4, g5, g6]
        rw [show c.toNat / 4096 * 4096 + c.toNat / 64 % 64 * 64 + c.toNat % 64 = c.toNat
          from by omega, Char.ofNat_toNat]
      · simp only [if_neg h1, if_neg h2, if_neg h3, List.cons_append, List.nil_append]
        rw [utf8Decode.eq_def]
        have g1 : ¬ (240 + c.toNat / 262144 < 128) := by omega
        have g2 : ¬ (240 + c.toNat / 262144 < 192) := by omega
        have g3 : ¬ (240 + c.toNat / 262144 < 224) := by omega
        have g4 : ¬ (240 + c.toNat / 262144 < 240) := by omega
        have g5 : 240 + c.toNat / 262144 < 248 := by omega
        have g6 : (128 + c.toNat / 4096 % 64) / 64 = 2 := by omega
        have g7 : (128 + c.toNat / 64 % 64) / 64 = 2 := by omega
        have g8 : (128 + c.toNat % 64) / 64 = 2 := by omega
        simp [if_neg g1, if_neg g2, if_neg g3, if_neg g4, if_pos g5, g6, g7, g8]
        rw [show c.toNat / 262144 * 262144 + c.toNat / 4096 % 64 * 4096
            + c.toNat / 64 % 64 * 64 + c.toNat % 64 = c.toNat from by omega, Char.ofNat_toNat]

theorem utf8Decode_utf8List (l : List Char) (f : Nat) (hf : l.length < f) :
    utf8Decode f (utf8List l) = some l := by
  induction l generalizing f with
  | nil =>
    obtain ⟨g, rfl⟩ : ∃ g, f = g + 1 := ⟨f - 1, by omega⟩
    rfl
  | cons c cs ih =>
    obtain ⟨g, rfl⟩ : ∃ g, f = g + 1 := ⟨f - 1, by omega⟩
    show utf8Decode (g + 1) (utf8Bytes c ++ utf8List cs) = some (c :: cs)
    rw [utf8Decode_utf8Bytes, ih g (by simp at hf; omega)]
    rfl

theorem utf8Bytes_lt (c : Char) : ∀ b ∈ utf8Bytes c, b < 256 := by
  have hv := char_toNat_lt c
  unfold utf8Bytes
  by_cases h1 : c.toNat < 128
  · simp [if_pos h1]; omega
  · by_cases h2 : c.toNat < 2048
    · simp [if_neg h1, if_pos h2]; omega
    · by_cases h3 : c.toNat < 65536
      · simp [if_neg h1, if_neg h2, if_pos h3]; omega
      · simp [if_neg h1, if_neg h2, if_neg h3]; omega

theorem utf8Bytes_length_pos (c : Char) : 1 ≤ (utf8Bytes c).length := by
  unfold utf8Bytes
  by_cases h1 : c.toNat < 128
  · simp [if_pos h1]
  · by_cases h2 : c.toNat < 2048
    · simp [if_neg h1, if_pos h2]
    · by_cases h3 : c.toNat < 65536
      · simp [if_neg h1, if_neg h2, if_pos h3]
      · simp [if_neg h1, if_neg h2, if_neg h3]

theorem utf8List_length_ge (l : List Char) : l.length ≤ (utf8List l).length := by
  induction l with
  | nil => simp [utf8List]
  | cons c cs ih =>
    have := utf8Bytes_length_pos c
    simp only [utf8List, List.length_append, List.length_cons]
    omega

theorem hexDigitU_toNat (d : Nat) (h : d < 16) :
    (48 ≤ (hexDigitU d).toNat ∧ (hexDigitU d).toNat ≤ 57) ∨
      (65 ≤ (hexDigitU d).toNat ∧ (hexDigitU d).toNat ≤ 70) := by
  unfold hexDigitU
  by_cases h10 : d < 10
  · rw [if_pos h10, toNat_ofNat_lt _ (by omega)]; omega
  · rw [if_neg h10, toNat_ofNat_lt _ (by omega)]; omega

theorem hexVal_hexDigitU (d : Nat) (h : d < 16) : hexVal (hexDigitU d) = some d := by
  unfold hexDigitU
  by_cases h10 : d < 10
  · rw [if_pos h10]
    have ht : (Char.ofNat (48 + d)).toNat = 48 + d := toNat_ofNat_lt _ (by omega)
    unfold hexVal
    rw [ht, if_pos (⟨by omega, by omega⟩ : 48 ≤ 48 + d ∧ 48 + d ≤ 57)]
    exact congrArg some (by omega)
  · rw [if_neg h10]
    have ht : (Char.ofNat (55 + d)).toNat = 55 + d := toNat_ofNat_lt _ (by omega)
    unfold hexVal
    rw [ht, if_neg (by omega), if_neg (by omega), if_pos (⟨by omega, by omega⟩ : 65 ≤ 55 + d ∧ 55 + d ≤ 70)]
    exact congrArg some (by omega)

theorem percentBytes_mem (bl : List Nat) (hb : ∀ b ∈ bl, b < 256) :
    ∀ c ∈ percentBytes bl, c = '%' ∨ (48 ≤ c.toNat ∧ c.toNat ≤ 57) ∨
      (65 ≤ c.toNat ∧ c.toNat ≤ 70) := by
  induction bl with
  | nil => simp [percentBytes]
  | cons b bs ih =>
    intro c hc
    have hb256 : b < 256 := hb b (by simp)
    simp only [percentBytes, byteHexU, List.cons_append, List.nil_append, List.mem_cons] at hc
    rcases hc with rfl | rfl | rfl | hc
    · exact Or.inl rfl
    · exact Or.inr (hexDigitU_toNat _ (by omega))
    · exact Or.inr (hexDigitU_toNat _ (by omega))
    · exact ih (fun x hx => hb x (by simp [hx])) c hc

theorem pct_char_ne (c : Char)
    (h : c = '%' ∨ (48 ≤ c.toNat ∧ c.toNat ≤ 57) ∨ (65 ≤ c.toNat ∧ c.toNat ≤ 70)) :
    c ≠ '+' ∧ c ≠ '&' := by
  constructor <;> rintro rfl <;> rcases h with h | h | h <;> revert h <;> decide

theorem list_map_id_on {α : Type} (f : α → α) :
    ∀ l : List α, (∀ x ∈ l, f x = x) → l.map f = l
  | [], _ => rfl
  | x :: xs, h => by
    simp only [List.map_cons, h x (by simp),
      list_map_id_on f xs (fun y hy => h y (by simp [hy]))]

theorem plusToSpace_eq_self (c : Char) (h : c ≠ '+') : plusToSpace c = c := if_neg h

theorem percentBytes_map_plusToSpace (bl : List Nat) (hb : ∀ b ∈ bl, b < 256) :
    (percentBytes bl).map plusToSpace = percentBytes bl :=
  list_map_id_on _ _ fun c hc =>
    plusToSpace_eq_self c (pct_char_ne c (percentBytes_mem bl hb c hc)).1

theorem pctBytes_plain (c : Char) (cs : List Char) (h : c ≠ '%') :
    pctBytes (c :: cs) = (pctBytes cs).map (fun bs => utf8Bytes c ++ bs) := by
  rw [pctBytes.eq_def]
  simp [if_neg h]

theorem pctBytes_percentBytes (bl : List Nat) (rest : List Char) (hb : ∀ b ∈ bl, b < 256) :
    pctBytes (percentBytes bl ++ rest) = (pctBytes rest).map (fun x => bl ++ x) := by
  induction bl with
  | nil => cases hp : pctBytes rest <;> simp [percentBytes, hp]
  | cons b bs ih =>
    have hb256 : b < 256 := hb b (by simp)
    show pctBytes (('%' : Char) :: hexDigitU (b / 16) :: hexDigitU (b % 16)
      :: (percentBytes bs ++ rest)) = _
    rw [pctBytes.eq_def]
    simp only [if_pos rfl, hexVal_hexDigitU _ (show b / 16 < 16 from by omega),
      hexVal_hexDigitU _ (show b % 16 < 16 from by omega)]
    rw [ih (fun x hx => hb x (by simp [hx]))]
    rw [show 16 * (b / 16) + b % 16 = b from by omega]
    cases hp : pctBytes rest <;> simp [hp]

theorem formEncodeChars_decode (l : List Char) (rest : List Char) :
    pctBytes ((formEncodeChars l).map plusToSpace ++ rest)
      = (pctBytes rest).map (fun x => utf8List l ++ x) := by
  induction l with
  | nil => cases hp : pctBytes rest <;> simp [formEncodeChars, utf8List, hp]
  | cons c cs ih =>
    show pctBytes (((if isUnreservedForm c = true then [c]
        else if c = ' ' then ['+'] else percentBytes (utf8Bytes c))
        ++ formEncodeChars cs).map plusToSpace ++ rest) = _
    by_cases hu : isUnreservedForm c = true
    · rw [if_pos hu]
      have hne : c ≠ '+' := by rintro rfl; exact absurd hu (by decide)
      have hnp : c ≠ '%' := by rintro rfl; exact absurd hu (by decide)
      simp only [List.cons_append, List.nil_append, List.map_cons,
        plusToSpace_eq_self c hne]
      rw [pctBytes_plain c _ hnp, ih]
      cases hp : pctBytes rest <;> simp [utf8List, hp]
    · rw [if_neg hu]
      by_cases hsp : c = ' '
      · rw [if_pos hsp]
        have hpl : plusToSpace '+' = ' ' := by decide
        simp only [List.cons_append, List.nil_append, List.map_cons, hpl]
        rw [pctBytes_plain ' ' _ (by decide), ih, hsp]
        cases hp : pctBytes rest <;> simp [utf8List, hp]
      · rw [if_neg hsp]
        rw [List.map_append, percentBytes_map_plusToSpace _ (utf8Bytes_lt c),
          List.append_assoc, pctBytes_percentBytes _ _ (utf8Bytes_lt c), ih]
        cases hp : pctBytes rest <;> simp [utf8List, hp]

theorem uriEncodeChars_decode (l : List Char) (rest : List Char) :
    pctBytes ((uriEncodeChars l).map plusToSpace ++ rest)
      = (pctBytes rest).map (fun x => utf8List l ++ x) := by
  induction l with
  | nil => cases hp : pctBytes rest <;> simp [uriEncodeChars, utf8List, hp]
  | cons c cs ih =>
    show pctBytes (((if isUnreservedURI c = true then [c]
        else percentBytes (utf8Bytes c)) ++ uriEncodeChars cs).map plusToSpace ++ rest) = _
    by_cases hu : isUnreservedURI c = true
    · rw [if_pos hu]
      have hne : c ≠ '+' := by rintro rfl; exact absurd hu (by decide)
      have hnp : c ≠ '%' := by rintro rfl; exact absurd hu (by decide)
      simp only [List.cons_append, List.nil_append, List.map_cons,
        plusToSpace_eq_self c hne]
      rw [pctBytes_plain c _ hnp, ih]
      cases hp : pctBytes rest <;> simp [utf8List, hp]
    · rw [if_neg hu]
      rw [List.map_append, percentBytes_map_plusToSpace _ (utf8Bytes_lt c),
        List.append_assoc, pctBytes_percentBytes _ _ (utf8Bytes_lt c), ih]
      cases hp : pctBytes rest <;> simp [utf8List, hp]

theorem formDecodeStr_formEncode (s : String) : formDecodeStr (formEncode s) = some s := by
  show (pctBytes ((formEncodeChars s.data).map plusToSpace)).bind _ = _
  have h := formEncodeChars_decode s.data []
  rw [List.append_nil] at h
  rw [h]
  simp only [show pctBytes [] = some [] from rfl, Option.map_some', Option.some_bind,
    List.append_nil]
  rw [utf8Decode_utf8List _ _
    (show s.data.length < (utf8List s.data).length + 1 from by
      have := utf8List_length_ge s.data; omega)]
  rfl

theorem formDecodeStr_encodeURIComponent (s : String) :
    formDecodeStr (encodeURIComponent s) = some s := by
  show (pctBytes ((uriEncodeChars s.data).map plusToSpace)).bind _ = _
  have h := uriEncodeChars_decode s.data []
  rw [List.append_nil] at h
  rw [h]
  simp only [show pctBytes [] = some [] from rfl, Option.map_some', Option.some_bind,
    List.append_nil]
  rw [utf8Decode_utf8List _ _
    (show s.data.length < (utf8List s.data).length + 1 from by
      have := utf8List_length_ge s.data; omega)]
  rfl

theorem formEncodeChars_no_amp (l : List Char) : ('&' : Char) ∉ formEncodeChars l := by
  induction l with
  | nil => simp [formEncodeChars]
  | cons c cs ih =>
    show ('&' : Char) ∉ (if isUnreservedForm c = true then [c]
      else if c = ' ' then ['+'] else percentBytes (utf8Bytes c)) ++ formEncodeChars cs
    intro hmem
    rw [List.mem_append] at hmem
    rcases hmem with h | h
    · by_cases hu : isUnreservedForm c = true
      · rw [if_pos hu] at h
        simp at h
        rw [← h] at hu
        exact absurd hu (by decide)
      · rw [if_neg hu] at h
        by_cases hsp : c = ' '
        · rw [if_pos hsp] at h; simp at h
        · rw [if_neg hsp] at h
          exact (pct_char_ne _ (percentBytes_mem _ (utf8Bytes_lt c) _ h)).2 rfl
    · exact ih h

theorem queryOf_append (pre rest : List Char) (h : ('?' : Char) ∉ pre) :
    queryOf (pre ++ '?' :: rest) = rest := by
  induction pre with
  | nil => simp [queryOf]
  | cons c cs ih =>
    have hc : c ≠ '?' := fun hh => h (by simp [hh])
    show queryOf (c :: (cs ++ '?' :: rest)) = rest
    rw [queryOf.eq_def]
    simp only [if_neg hc]
    exact ih fun hh => h (by simp [hh])

theorem splitAmpAux_no_amp (l : List Char) : ∀ cur, ('&' : Char) ∉ l →
    splitAmpAux cur l = [cur.reverse ++ l] := by
  induction l with
  | nil => intro cur h; simp [splitAmpAux]
  | cons c cs ih =>
    intro cur h
    have hc : c ≠ '&' := fun hh => h (by simp [hh])
    rw [splitAmpAux.eq_def]
    simp only [if_neg hc]
    rw [ih (c :: cur) fun hh => h (by simp [hh])]
    simp

theorem splitAmpAux_amp (l : List Char) : ∀ cur rest, ('&' : Char) ∉ l →
    splitAmpAux cur (l ++ '&' :: rest) = (cur.reverse ++ l) :: splitAmpAux [] rest := by
  induction l with
  | nil =>
    intro cur rest h
    show splitAmpAux cur ('&' :: rest) = _
    rw [splitAmpAux.eq_def]
    simp
  | cons c cs ih =>
    intro cur rest h
    have hc : c ≠ '&' := fun hh => h (by simp [hh])
    show splitAmpAux cur (c :: (cs ++ '&' :: rest)) = _
    rw [splitAmpAux.eq_def]
    simp only [if_neg hc]
    rw [ih (c :: cur) rest fun hh => h (by simp [hh])]
    simp

theorem splitEqL_append (k v : List Char) (h : ('=' : Char) ∉ k) :
    splitEqL (k ++ '=' :: v) = (k, v) := by
  induction k with
  | nil =>
    show splitEqL ('=' :: v) = _
    rw [splitEqL.eq_def]
    simp
  | cons c cs ih =>
    have hc : c ≠ '=' := fun hh => h (by simp [hh])
    show splitEqL (c :: (cs ++ '=' :: v)) = _
    rw [splitEqL.eq_def]
    simp only [if_neg hc]
    rw [ih fun hh => h (by simp [hh])]

theorem getParam_head (url : String) (base kc vc rest : List Char) (k0 : String)
    (hu : url.data = base ++ '?' :: (kc ++ '=' :: (vc ++ '&' :: rest)))
    (hqb : ('?' : Char) ∉ base) (hke : ('=' : Char) ∉ kc) (hka : ('&' : Char) ∉ kc)
    (hva : ('&' : Char) ∉ vc)
    (hkd : formDecodeStr (String.mk kc) = some k0) :
    getParam url k0 = formDecodeStr (String.mk vc) := by
  unfold getParam
  rw [hu, queryOf_append _ _ hqb]
  have hassoc : kc ++ '=' :: (vc ++ '&' :: rest) = (kc ++ '=' :: vc) ++ '&' :: rest := by
    simp [List.append_assoc]
  rw [hassoc, splitAmpAux_amp _ _ _ (by
    intro hmem
    rw [List.mem_append] at hmem
    rcases hmem with hm | hm
    · exact hka hm
    · simp at hm
      exact hva hm)]
  simp only [List.reverse_nil, List.nil_append]
  have hpred : (formDecodeStr (String.mk (splitEqL (kc ++ '=' :: vc)).1) == some k0)
      = true := by
    rw [splitEqL_append _ _ hke]
    simp [hkd]
  have hf : List.find? (fun chunk => formDecodeStr (String.mk (splitEqL chunk).1) == some k0)
      ((kc ++ '=' :: vc) :: splitAmpAux [] rest) = some (kc ++ '=' :: vc) := by
    rw [List.find?_cons, hpred]
  rw [hf]
  show formDecodeStr (String.mk (splitEqL (kc ++ '=' :: vc)).2) = _
  rw [splitEqL_append _ _ hke]

/-- Claim C6 counterexample: for the data string `{"a":1}` (braces, colon,
quotes), the `data` parameter of the produced QR Server URL and the `text`
parameter of the QuickChart URL form-decode to the percent-encoded string
`%7B%22a%22%3A1%7D`, not to the original data: both builders apply
`encodeURIComponent` before handing the value to `URLSearchParams`, which
percent-encodes a second time. -/
theorem c6_counterexample :
    getParam (buildQRServerUrl "\x7b\"a\":1\x7d"
        (effApiOptions ⟨none, none, none, none, none, none⟩)) "data"
      = some "%7B%22a%22%3A1%7D" ∧
    getParam (buildQuickChartUrl "\x7b\"a\":1\x7d" 300 "png") "text"
      = some "%7B%22a%22%3A1%7D" ∧
    ("%7B%22a%22%3A1%7D" : String) ≠ "\x7b\"a\":1\x7d" :=
  ⟨by rfl, by rfl, by decide⟩

/-- Claim C6 (amended): for every data string, the provider query parameter
(`data` for QR Server, `text` for QuickChart) of the produced URL decodes,
under one round of standard form decoding, to `encodeURIComponent` of the
data — one encoding layer remains — and only a second standard decode
recovers the original data string. -/
theorem c6_double_encoding_amended (d : String) (o : ApiOptions) (size : Nat) (fmt : String) :
    getParam (buildQRServerUrl d o) "data" = some (encodeURIComponent d) ∧
    getParam (buildQuickChartUrl d size fmt) "text" = some (encodeURIComponent d) ∧
    formDecodeStr (encodeURIComponent d) = some d := by
  have hq2 : ("?" : String).data = ['?'] := rfl
  have he2 : ("=" : String).data = ['='] := rfl
  have ha2 : ("&" : String).data = ['&'] := rfl
  refine ⟨?_, ?_, formDecodeStr_encodeURIComponent d⟩
  · have hb : buildQRServerUrl d o
        = (qrserverBase ++ "?") ++ ((((formEncode "data" ++ "=")
            ++ formEncode (encodeURIComponent d)) ++ "&") ++ formPairs
          [("size", natReprStr o.size ++ "x" ++ natReprStr o.size),
           ("format", o.format),
           ("ecc", o.errorCorrection),
           ("margin", natReprStr o.margin),
           ("color", o.color),
           ("bgcolor", o.backgroundColor)]) := rfl
    refine (getParam_head (buildQRServerUrl d o) qrserverBase.data (formEncode "data").data
        (formEncode (encodeURIComponent d)).data
        (formPairs [("size", natReprStr o.size ++ "x" ++ natReprStr o.size),
          ("format", o.format), ("ecc", o.errorCorrection), ("margin", natReprStr o.margin),
          ("color", o.color), ("bgcolor", o.backgroundColor)]).data "data"
        ?_ (by decide) (by decide) (by decide) ?_ (by rfl)).trans ?_
    · rw [hb]
      simp [String.data_append, hq2, he2, ha2, List.append_assoc]
    · show ('&' : Char) ∉ formEncodeChars (encodeURIComponent d).data
      exact formEncodeChars_no_amp _
    · show formDecodeStr (formEncode (encodeURIComponent d)) = _
      exact formDecodeStr_formEncode _
  · have hb : buildQuickChartUrl d size fmt
        = (quickchartBase ++ "?") ++ ((((formEncode "text" ++ "=")
            ++ formEncode (encodeURIComponent d)) ++ "&") ++ formPairs
          [("size", natReprStr size ++ "x" ++ natReprStr size),
           ("format", fmt)]) := rfl
    refine (getParam_head (buildQuickChartUrl d size fmt) quickchartBase.data
        (formEncode "text").data (formEncode (encodeURIComponent d)).data
        (formPairs [("size", natReprStr size ++ "x" ++ natReprStr size),
          ("format", fmt)]).data "text"
        ?_ (by decide) (by decide) (by decide) ?_ (by rfl)).trans ?_
    · rw [hb]
      simp [String.data_append, hq2, he2, ha2, List.append_assoc]
    · show ('&' : Char) ∉ formEncodeChars (encodeURIComponent d).data
      exact formEncodeChars_no_amp _
    · show formDecodeStr (formEncode (encodeURIComponent d)) = _
      exact formDecodeStr_formEncode _

/-! ## Claim C7: the qrHash field

Helper lemmas: the SHA-256 digest is 32 bytes below 256, and the
JavaScript hex printer maps such digests to 64 lowercase-hex characters. -/

theorem sha256Round_length (st : List Nat) (kw : Nat) :
    (sha256Round st kw).length = st.length := by
  unfold sha256Round
  split
  · simp_all
  · rfl

theorem foldl_sha256Round_length (kws : List Nat) (st : List Nat) :
    (kws.foldl sha256Round st).length = st.length := by
  induction kws generalizing st with
  | nil => rfl
  | cons k ks ih => simp [List.foldl_cons, ih, sha256Round_length]

theorem sha256Compress_length (h : List Nat) (block : List Nat) :
    (sha256Compress h block).length = h.length := by
  unfold sha256Compress
  simp [List.length_zipWith, foldl_sha256Round_length]

theorem foldl_sha256Compress_length (blocks : List (List Nat)) (h : List Nat) :
    (blocks.foldl sha256Compress h).length = h.length := by
  induction blocks generalizing h with
  | nil => rfl
  | cons b bs ih => simp [List.foldl_cons, ih, sha256Compress_length]

theorem wordsToBytes_length (ws : List Nat) : (wordsToBytes ws).length = 4 * ws.length := by
  induction ws with
  | nil => rfl
  | cons w ws ih => simp [wordsToBytes, wordBE4, ih]; omega

theorem wordsToBytes_lt (ws : List Nat) : ∀ b ∈ wordsToBytes ws, b < 256 := by
  induction ws with
  | nil => simp [wordsToBytes]
  | cons w rest ih =>
    intro b hb
    simp only [wordsToBytes, wordBE4, List.cons_append, List.nil_append, List.mem_cons] at hb
    rcases hb with rfl | rfl | rfl | rfl | hb
    · omega
    · omega
    · omega
    · omega
    · exact ih b hb

theorem sha256_length (bytes : List Nat) : (sha256 bytes).length = 32 := by
  unfold sha256
  rw [wordsToBytes_length, foldl_sha256Compress_length]
  rfl

theorem sha256_lt (bytes : List Nat) : ∀ b ∈ sha256 bytes, b < 256 := by
  unfold sha256
  exact wordsToBytes_lt _

theorem hexDigitL_range (n : Nat) (h : n < 16) :
    (48 ≤ (hexDigitL n).toNat ∧ (hexDigitL n).toNat ≤ 57) ∨
      (97 ≤ (hexDigitL n).toNat ∧ (hexDigitL n).toNat ≤ 102) := by
  unfold hexDigitL
  by_cases h10 : n < 10
  · rw [if_pos h10, toNat_ofNat_lt _ (by omega)]; omega
  · rw [if_neg h10, toNat_ofNat_lt _ (by omega)]; omega

theorem byteHexJS_length (b : Nat) : (byteHexJS b).length = 2 := by
  unfold byteHexJS
  split <;> rfl

theorem byteHexJS_range (b : Nat) (hb : b < 256) :
    ∀ c ∈ byteHexJS b, (48 ≤ c.toNat ∧ c.toNat ≤ 57) ∨
      (97 ≤ c.toNat ∧ c.toNat ≤ 102) := by
  unfold byteHexJS
  by_cases h16 : b < 16
  · rw [if_pos h16]
    intro c hc
    simp only [List.mem_cons, List.not_mem_nil, or_false] at hc
    rcases hc with rfl | rfl
    · left; constructor <;> decide
    · exact hexDigitL_range b (by omega)
  · rw [if_neg h16]
    intro c hc
    simp only [List.mem_cons, List.not_mem_nil, or_false] at hc
    rcases hc with rfl | rfl
    · exact hexDigitL_range _ (by omega)
    · exact hexDigitL_range _ (by omega)

theorem bytesToHexJS_length (bl : List Nat) : (bytesToHexJS bl).length = 2 * bl.length := by
  induction bl with
  | nil => rfl
  | cons b bs ih =>
    simp [bytesToHexJS, byteHexJS_length, ih]
    omega

theorem bytesToHexJS_range (bl : List Nat) (hb : ∀ b ∈ bl, b < 256) :
    ∀ c ∈ bytesToHexJS bl, (48 ≤ c.toNat ∧ c.toNat ≤ 57) ∨
      (97 ≤ c.toNat ∧ c.toNat ≤ 102) := by
  induction bl with
  | nil => simp [bytesToHexJS]
  | cons b bs ih =>
    intro c hc
    simp only [bytesToHexJS, List.mem_append] at hc
    rcases hc with hc | hc
    · exact byteHexJS_range b (hb b (by simp)) c hc
    · exact ih (fun x hx => hb x (by simp [hx])) c hc

theorem generateQR_qrHash_of_success (env : GenEnv) (data : List (String × Json))
    (title : String) (h : (generateQR env data title).success = true) :
    (generateQR env data title).qrHash
      = some (generateHash (enrichStringOf env.origin env.nowMs data)) := by
  unfold generateQR at h ⊢
  simp only [generateQRT] at h ⊢
  split at h
  · simp_all
  · split at h
    · simp_all
    · simp_all

/-- Claim C7: when generation succeeds, `qrHash` is exactly `generateHash`
of the serialized enriched payload; that hash string is the lowercase-hex
SHA-256 digest of the payload string's UTF-8 bytes — 64 characters, each a
decimal digit or one of `a`-`f` — and it is a pure function of the
serialized payload: any two successful runs with identical serialized
enriched payloads produce identical `qrHash` values. -/
theorem c7_hash_spec (env : GenEnv) (data : List (String × Json)) (t : String)
    (h : (generateQR env data t).success = true) :
    (generateQR env data t).qrHash
      = some (generateHash (enrichStringOf env.origin env.nowMs data)) ∧
    (generateHash (enrichStringOf env.origin env.nowMs data)).data
      = bytesToHexJS (sha256 (utf8List (enrichStringOf env.origin env.nowMs data).data)) ∧
    (generateHash (enrichStringOf env.origin env.nowMs data)).data.length = 64 ∧
    (∀ c ∈ (generateHash (enrichStringOf env.origin env.nowMs data)).data,
      (48 ≤ c.toNat ∧ c.toNat ≤ 57) ∨ (97 ≤ c.toNat ∧ c.toNat ≤ 102)) ∧
    (∀ env2 data2 t2, (generateQR env2 data2 t2).success = true →
      enrichStringOf env2.origin env2.nowMs data2 = enrichStringOf env.origin env.nowMs data →
      (generateQR env2 data2 t2).qrHash = (generateQR env data t).qrHash) := by
  refine ⟨generateQR_qrHash_of_success env data t h, rfl, ?_, ?_, ?_⟩
  · show (bytesToHexJS (sha256 (utf8List
      (enrichStringOf env.origin env.nowMs data).data))).length = 64
    rw [bytesToHexJS_length, sha256_length]
  · show ∀ c ∈ bytesToHexJS (sha256 (utf8List
      (enrichStringOf env.origin env.nowMs data).data)), _
    exact bytesToHexJS_range _ (sha256_lt _)
  · intro env2 data2 t2 h2 heq
    rw [generateQR_qrHash_of_success env2 data2 t2 h2,
      generateQR_qrHash_of_success env data t h, heq]

/-- Witness for C7 at a concrete successful run (network down, local
renderer succeeding). -/
theorem c7_hash_spec_witness :
    (generateQR genEnvLocalOk samplePayload "Sample").success = true ∧
    (generateQR genEnvLocalOk samplePayload "Sample").qrHash
      = some (generateHash
          (enrichStringOf genEnvLocalOk.origin genEnvLocalOk.nowMs samplePayload)) :=
  ⟨by rfl, (c7_hash_spec genEnvLocalOk samplePayload "Sample" (by rfl)).1⟩
